import Mathlib

/-!
Verification of the grants-scraper crawl/extract/dedupe pipeline.

Shallow embedding conventions:
* Python strings are modelled as `List Char` (`LC`).  All text-processing
  helpers of the source (whitespace collapse, strip, regex searches with
  their leftmost-match and greedy-with-backtracking behaviour) are embedded
  as executable functions below, translated from the source files
  `extract_details.py`, `dedupe_details.py` and `crawl_list.py`.
* `\d` is modelled as the ASCII digits and `\s` / `str.split()` / `str.strip()`
  whitespace as the ASCII whitespace characters plus the ideographic space,
  which covers every character class the repository's inputs exercise.
* `datetime.now()` is modelled by an explicit `nowYear : Nat` parameter and
  the fetch date by an explicit `today : LC` parameter.
* `datetime(y, m, d)` construction plus `strftime("%Y-%m-%d")` is modelled by
  the validity test `validDate` and the zero-padded formatter `fmtDate`.
-/

abbrev LC := List Char

/-- Whitespace as recognised by Python's `str.split()` / `str.strip()` / `\s`
for the characters occurring in this repository's data (ASCII whitespace and
the ideographic space U+3000). -/
def isSpaceCh (ch : Char) : Bool :=
  decide (ch = ' ') || decide (ch = '\t') || decide (ch = '\n') ||
  decide (ch = '\r') || decide (ch = '\x0b') || decide (ch = '\x0c') ||
  decide (ch = '　')

/-- ASCII digit test, the model of the regex class `\d`. -/
def isDigitCh (ch : Char) : Bool :=
  decide (48 ≤ ch.toNat) && decide (ch.toNat ≤ 57)

/-- Numeric value of a digit character (`int` applied to one digit). -/
def digitVal (ch : Char) : Nat := ch.toNat - 48

/-- The decimal digit character for `n % 10`. -/
def digitChar10 (n : Nat) : Char :=
  match n % 10 with
  | 0 => '0' | 1 => '1' | 2 => '2' | 3 => '3' | 4 => '4'
  | 5 => '5' | 6 => '6' | 7 => '7' | 8 => '8' | 9 => '9'
  | _ => '0'

/-- Two-digit zero-padded decimal rendering (for `%m` / `%d` of `strftime`). -/
def pad2 (n : Nat) : LC :=
  if n < 10 then ['0', digitChar10 n]
  else [digitChar10 (n / 10), digitChar10 n]

/-- Four-digit zero-padded decimal rendering (for `%Y` of `strftime`). -/
def pad4 (n : Nat) : LC :=
  [digitChar10 (n / 1000), digitChar10 (n / 100), digitChar10 (n / 10), digitChar10 n]

/-- Gregorian leap-year test, as used by Python's `datetime`. -/
def isLeap (y : Nat) : Bool :=
  decide (y % 4 = 0) && (decide (¬ y % 100 = 0) || decide (y % 400 = 0))

/-- Number of days of month `m` in year `y` (0 for an invalid month). -/
def daysInMonth (y m : Nat) : Nat :=
  match m with
  | 1 => 31 | 3 => 31 | 5 => 31 | 7 => 31 | 8 => 31 | 10 => 31 | 12 => 31
  | 4 => 30 | 6 => 30 | 9 => 30 | 11 => 30
  | 2 => if isLeap y then 29 else 28
  | _ => 0

/-- Whether `datetime(y, m, d)` succeeds. -/
def validDate (y m d : Nat) : Bool :=
  decide (1 ≤ y) && decide (y ≤ 9999) && decide (1 ≤ m) && decide (m ≤ 12) &&
  decide (1 ≤ d) && decide (d ≤ daysInMonth y m)

/-- `datetime(y, m, d).strftime("%Y-%m-%d")`.  `%Y` is rendered zero-padded
to four digits; CPython delegates `%Y` to the platform and glibc pads only
from year 1000 on, so the model is exact for every year ≥ 1000 (theorems
quantifying over the year assume this range). -/
def fmtDate (y m d : Nat) : LC := pad4 y ++ '-' :: (pad2 m ++ '-' :: pad2 d)

/-- Python `str.strip()`. -/
def pstrip (cs : LC) : LC :=
  ((cs.dropWhile isSpaceCh).reverse.dropWhile isSpaceCh).reverse

/-- Helper for `str.split()` with no argument: accumulates the current word
(reversed) and splits on whitespace runs, dropping empty pieces. -/
def pysplitAux : LC → LC → List LC
  | [], acc => if acc = [] then [] else [acc.reverse]
  | c :: rest, acc =>
    if isSpaceCh c then
      if acc = [] then pysplitAux rest [] else acc.reverse :: pysplitAux rest []
    else pysplitAux rest (c :: acc)

/-- Python `str.split()` with no argument. -/
def pysplit (cs : LC) : List LC := pysplitAux cs []

/-- `" ".join(ws)`. -/
def joinSpace : List LC → LC
  | [] => []
  | [w] => w
  | w :: ws => w ++ ' ' :: joinSpace ws

/-- `" ".join(text.split())`: whitespace collapse. -/
def wsCollapse (cs : LC) : LC := joinSpace (pysplit cs)

/-- Helper for `str.split(sep)` on a single-character separator, keeping
empty pieces (used to model `strptime("%Y-%m-%d")`). -/
def splitCharAux (sep : Char) : LC → LC → List LC
  | [], acc => [acc.reverse]
  | c :: rest, acc =>
    if c = sep then acc.reverse :: splitCharAux sep rest []
    else splitCharAux sep rest (c :: acc)

/-- `str.split(sep)` for a one-character separator. -/
def splitChar (sep : Char) (cs : LC) : List LC := splitCharAux sep cs []

/-- Boolean list membership via decidable equality (Python `in`). -/
def elemL [DecidableEq α] (x : α) : List α → Bool
  | [] => false
  | y :: r => if x = y then true else elemL x r

/-- Boolean prefix test via decidable equality. -/
def isPrefixL [DecidableEq α] : List α → List α → Bool
  | [], _ => true
  | _ :: _, [] => false
  | c :: cr, d :: dr => if c = d then isPrefixL cr dr else false

/-- Python's substring test `sep in raw`. -/
def containsSub (sep : LC) : LC → Bool
  | [] => isPrefixL sep []
  | c :: rest => isPrefixL sep (c :: rest) || containsSub sep rest

/-- Python's `raw.split(sep, 1)` for a separator known to occur in `raw`
(split at the first occurrence). -/
def splitOnce (sep : LC) : LC → LC × LC
  | [] => ([], [])
  | c :: rest =>
    if isPrefixL sep (c :: rest) then ([], (c :: rest).drop sep.length)
    else
      let p := splitOnce sep rest
      (c :: p.1, p.2)

/-- The first separator of `seps` (in list order, as in the Python `for` loop)
that occurs in `raw`. -/
def find_first_sep (seps : List LC) (raw : LC) : Option LC :=
  seps.find? (fun s => containsSub s raw)

/-! ## `extract_details.py`: the regex searches of `_norm_date` -/

/-- The separator class `[年/.\-]` after the year group of the first pattern
of `_norm_date`. -/
def sep1Chars : List Char := ['年', '/', '.', '-']

/-- The separator class `[月/.\-]` of the month/day patterns of `_norm_date`. -/
def sep2Chars : List Char := ['月', '/', '.', '-']

/-- The separator class `[./月]` of the title-fallback pattern of
`extract_detail`. -/
def titleSepChars : List Char := ['.', '/', '月']

/-- Matches `<sep>\s*(\d{1,2})` at the head of the input: a separator from
`sepSet`, optional whitespace, then one or two digits (greedy). -/
def afterSep (sepSet : List Char) : LC → Option Nat
  | [] => none
  | s :: rest =>
    if elemL s sepSet then
      match rest.dropWhile isSpaceCh with
      | [] => none
      | a :: tl =>
        if isDigitCh a then
          match tl with
          | b :: _ =>
            if isDigitCh b then some (10 * digitVal a + digitVal b)
            else some (digitVal a)
          | [] => some (digitVal a)
        else none
    else none

/-- Matches `(\d{1,2})<sep>\s*(\d{1,2})` at the head of the input, with the
regex engine's greedy-then-backtrack behaviour on the first group. -/
def matchMDAt (sepSet : List Char) : LC → Option (Nat × Nat)
  | [] => none
  | a :: rest =>
    if isDigitCh a then
      match rest with
      | b :: rest2 =>
        if isDigitCh b then
          match afterSep sepSet rest2 with
          | some d2 => some (10 * digitVal a + digitVal b, d2)
          | none =>
            match afterSep sepSet rest with
            | some d2 => some (digitVal a, d2)
            | none => none
        else
          match afterSep sepSet rest with
          | some d2 => some (digitVal a, d2)
          | none => none
      | [] => none
    else none

/-- `re.search` for `(\d{1,2})<sep>\s*(\d{1,2})`: leftmost match. -/
def searchMD (sepSet : List Char) : LC → Option (Nat × Nat)
  | [] => none
  | c :: rest =>
    match matchMDAt sepSet (c :: rest) with
    | some r => some r
    | none => searchMD sepSet rest

/-- Matches `(\d{4})[年/.\-]\s*(\d{1,2})[月/.\-]\s*(\d{1,2})` at the head of
the input. -/
def matchYMDAt : LC → Option (Nat × Nat × Nat)
  | a :: b :: c :: d :: e :: rest =>
    if isDigitCh a && isDigitCh b && isDigitCh c && isDigitCh d &&
       elemL e sep1Chars then
      match matchMDAt sep2Chars (rest.dropWhile isSpaceCh) with
      | some (m, dd) =>
        some (1000 * digitVal a + 100 * digitVal b + 10 * digitVal c + digitVal d, m, dd)
      | none => none
    else none
  | _ => none

/-- `re.search` for the year-month-day pattern of `_norm_date`. -/
def searchYMD : LC → Option (Nat × Nat × Nat)
  | [] => none
  | c :: rest =>
    match matchYMDAt (c :: rest) with
    | some r => some r
    | none => searchYMD rest

/-- Matches `(\d{4})\s*年` at the head of the input (the year hint of the
period branch of `extract_detail`). -/
def matchYearAt : LC → Option Nat
  | a :: b :: c :: d :: rest =>
    if isDigitCh a && isDigitCh b && isDigitCh c && isDigitCh d then
      match rest.dropWhile isSpaceCh with
      | e :: _ => if e = '年' then some (1000 * digitVal a + 100 * digitVal b + 10 * digitVal c + digitVal d) else none
      | [] => none
    else none
  | _ => none

/-- `re.search(r"(\d{4})\s*年", ...)`. -/
def searchYear : LC → Option Nat
  | [] => none
  | c :: rest =>
    match matchYearAt (c :: rest) with
    | some r => some r
    | none => searchYear rest

/-- `default_year or datetime.now().year` of `_norm_date` (Python `or`
truthiness: a supplied year 0 is falsy and falls back to the current year). -/
def resolve_default (dflt : Option Nat) (nowYear : Nat) : Nat :=
  match dflt with
  | some dy => if dy = 0 then nowYear else dy
  | none => nowYear

/-- `_norm_date` of `extract_details.py`: strip, try the absolute
year-month-day pattern, then the bare month-day pattern completed with the
supplied or current year; swallow invalid calendar dates as `none`. -/
def norm_date (text : LC) (dflt : Option Nat) (nowYear : Nat) : Option LC :=
  let t := pstrip text
  if t = [] then none
  else
    match searchYMD t with
    | some (y, m, d) => if validDate y m d then some (fmtDate y m d) else none
    | none =>
      match searchMD sep2Chars t with
      | some (m, d) =>
        let y := resolve_default dflt nowYear
        if validDate y m d then some (fmtDate y m d) else none
      | none => none

/-! ## `extract_details.py`: `extract_detail`

The HTML boundary is abstracted: a detail-page row is given by its label
text (`lab.get_text(strip=True)`), its value text
(`val.get_text(" ", strip=True)`) and, for the source-link branch, the first
hyperlink of the value node already resolved to an absolute URL
(`urljoin(page_url, a["href"])`).  Everything after that boundary is
translated from the source. -/

structure DRow where
  label : LC
  text : LC
  hrefAbs : Option LC
deriving DecidableEq

structure DetailCfg where
  label_map : List (LC × LC)
  range_separators : Option (List LC)
deriving DecidableEq

/-- The default of `cfg.get("range_separators", ["～", "〜", "-", "から", "~"])`. -/
def default_range_separators : List LC := [['～'], ['〜'], ['-'], ['か', 'ら'], ['~']]

/-- `cfg.get("range_separators", default)`. -/
def sepsOf (cfg : DetailCfg) : List LC :=
  match cfg.range_separators with
  | some s => s
  | none => default_range_separators

def sourceUrlStr : LC := ['s', 'o', 'u', 'r', 'c', 'e', '_', 'u', 'r', 'l']

def summaryStr : LC := ['s', 'u', 'm', 'm', 'a', 'r', 'y']

def fundNameStr : LC := ['f', 'u', 'n', 'd', '_', 'n', 'a', 'm', 'e']

def amountStr : LC := ['a', 'm', 'o', 'u', 'n', 't']

def periodStr : LC := ['p', 'e', 'r', 'i', 'o', 'd']

def startDateStr : LC := ['s', 't', 'a', 'r', 't', '_', 'd', 'a', 't', 'e']

def deadlineDateStr : LC := ['d', 'e', 'a', 'd', 'l', 'i', 'n', 'e', '_', 'd', 'a', 't', 'e']

/-- The record built by `extract_detail`. -/
structure DetailOut where
  title : Option LC
  start_date : Option LC
  deadline_date : Option LC
  summary : Option LC
  processed_summary : Option LC
  amount : Option LC
  source_url : Option LC
  fund_name : Option LC
  page_url : LC
  fetched_at : LC
  category1 : Option LC
  category2 : Option LC
  category3 : Option LC
  deleted : Option LC
deriving DecidableEq

/-- `label_map.get(label)`: exact-match dictionary lookup. -/
def lookupLM : List (LC × LC) → LC → Option LC
  | [], _ => none
  | p :: rest, lab => if p.1 = lab then some p.2 else lookupLM rest lab

/-- Python's `a or b` for the optional date fields of `extract_detail`
(a set field is always a non-empty string, hence truthy). -/
def pyOr (a b : Option LC) : Option LC :=
  match a with
  | some x => some x
  | none => b

/-- The split of a period text at the first matching range separator
(separators tried in configuration order, split at the first occurrence). -/
def periodSplitOf (seps : List LC) (raw : LC) : Option (LC × LC) :=
  match find_first_sep seps raw with
  | some sep => some (splitOnce sep raw)
  | none => none

/-- The separator loop of the `period` branch (lines 90-99): split on the
first matching separator and parse both sides, the right side with the left
side's 4-digit year hint — else the current year — as default year. -/
def periodPair (seps : List LC) (raw : LC) (nowYear : Nat) : Option LC × Option LC :=
  match periodSplitOf seps raw with
  | some lr =>
    (norm_date lr.1 none nowYear,
     norm_date lr.2
       (some (match searchYear lr.1 with
              | some y => y
              | none => nowYear))
       nowYear)
  | none => (none, none)

/-- The `period` branch of `extract_detail` (lines 87-103): the separator
loop, then, if neither side parsed, the fallback that parses the whole text
as a single start date. -/
def periodParse (seps : List LC) (raw : LC) (nowYear : Nat) : Option LC × Option LC :=
  match periodPair seps raw nowYear with
  | (none, none) => (norm_date raw none nowYear, none)
  | p => p

/-- The `elif` dispatch on the mapped field name (lines 73-109 of
`extract_details.py`). -/
def applyField (cfg : DetailCfg) (nowYear : Nat) (out : DetailOut) (row : DRow)
    (field : LC) : DetailOut :=
  if field = [] then out
    else if field = sourceUrlStr then
      match row.hrefAbs with
      | some u => { out with source_url := some u }
      | none => out
    else if field = summaryStr then { out with summary := some row.text }
    else if field = fundNameStr then { out with fund_name := some row.text }
    else if field = amountStr then { out with amount := some row.text }
    else if field = periodStr then
      let pp := periodParse (sepsOf cfg) (wsCollapse row.text) nowYear
      { out with start_date := pyOr out.start_date pp.1,
                 deadline_date := pyOr out.deadline_date pp.2 }
    else if field = startDateStr then
      { out with start_date := norm_date row.text none nowYear }
    else if field = deadlineDateStr then
      { out with deadline_date := norm_date row.text none nowYear }
    else out

/-- One iteration of the row loop of `extract_detail` (lines 60-109): resolve
the label against the map (`if not field: continue` is the empty-field guard
of `applyField`), then dispatch. -/
def processRow (cfg : DetailCfg) (nowYear : Nat) (out : DetailOut) (row : DRow) : DetailOut :=
  match lookupLM cfg.label_map row.label with
  | none => out
  | some field => applyField cfg nowYear out row field

/-- The initial record of `extract_detail` (lines 35-50, with the title
selector's result already applied). -/
def initOut (title : Option LC) (page_url today : LC) : DetailOut :=
  { title := title, start_date := none, deadline_date := none,
    summary := none, processed_summary := none, amount := none,
    source_url := none, fund_name := none, page_url := page_url,
    fetched_at := today, category1 := none, category2 := none,
    category3 := none, deleted := none }

/-- The deadline fallback of `extract_detail` (lines 111-119): when no
deadline was resolved from the rows and the title is a non-empty string,
scan the title for a trailing month/day and complete it with the current
year; invalid dates are swallowed. -/
def detailFallback (nowYear : Nat) (out1 : DetailOut) : DetailOut :=
  match out1.deadline_date, out1.title with
  | none, some t =>
    if t = [] then out1
    else
      match searchMD titleSepChars t with
      | some (mm, dd) =>
        if validDate nowYear mm dd then
          { out1 with deadline_date := some (fmtDate nowYear mm dd) }
        else out1
      | none => out1
  | _, _ => out1

/-- `extract_detail`: the initial record, the row loop, and the
title-fallback completion of a missing deadline. -/
def extract_detail (title : Option LC) (rows : List DRow) (page_url : LC)
    (cfg : DetailCfg) (nowYear : Nat) (today : LC) : DetailOut :=
  detailFallback nowYear (rows.foldl (processRow cfg nowYear) (initOut title page_url today))

/-- The start-date contribution of a row: the parsed left side of its period
text when the row is period-mapped, `none` otherwise. -/
def periodStartOf (cfg : DetailCfg) (nowYear : Nat) (row : DRow) : Option LC :=
  if lookupLM cfg.label_map row.label = some periodStr then
    (periodParse (sepsOf cfg) (wsCollapse row.text) nowYear).1
  else none

/-- The deadline contribution of a row: the parsed right side of its period
text when the row is period-mapped, `none` otherwise. -/
def periodEndOf (cfg : DetailCfg) (nowYear : Nat) (row : DRow) : Option LC :=
  if lookupLM cfg.label_map row.label = some periodStr then
    (periodParse (sepsOf cfg) (wsCollapse row.text) nowYear).2
  else none

/-! ## `dedupe_details.py`

A details-store row is the CSV record with all sixteen columns as strings;
a missing `deleted` column is modelled as the empty string (the condition
`"deleted" not in r or r["deleted"] == ""` of `ensure_deleted_col`). -/

structure DetailRow where
  id : LC
  site_key : LC
  fetched_at : LC
  title : LC
  start_date : LC
  deadline_date : LC
  summary : LC
  processed_summary : LC
  amount : LC
  fund_name : LC
  source_url : LC
  page_url : LC
  category1 : LC
  category2 : LC
  category3 : LC
  deleted : LC
deriving DecidableEq

instance : Inhabited DetailRow :=
  ⟨⟨[], [], [], [], [], [], [], [], [], [], [], [], [], [], [], []⟩⟩

/-- `ensure_deleted_col` applied to one row: a missing or empty deletion
flag becomes `"0"`. -/
def ensure_deleted (r : DetailRow) : DetailRow :=
  if r.deleted = [] then { r with deleted := ['0'] } else r

/-- `norm_len`: length of the whitespace-collapsed text. -/
def norm_len (text : LC) : Nat := (wsCollapse text).length

/-- `parse_date`: `datetime.strptime(s, "%Y-%m-%d")`, i.e. exactly a 4-digit
year, one or two digit month in 1..12, one or two digit day in 1..31
(syntactic bounds of the `strptime` regular expressions), separated by
hyphens and consuming the whole string, then validated by `datetime`. -/
def parse_date (s : LC) : Option (Nat × Nat × Nat) :=
  match splitChar '-' s with
  | [ys, ms, ds] =>
    if ys.length = 4 && ys.all isDigitCh &&
       decide (1 ≤ ms.length) && decide (ms.length ≤ 2) && ms.all isDigitCh &&
       decide (1 ≤ ds.length) && decide (ds.length ≤ 2) && ds.all isDigitCh then
      let y := ys.foldl (fun a c => 10 * a + digitVal c) 0
      let m := ms.foldl (fun a c => 10 * a + digitVal c) 0
      let d := ds.foldl (fun a c => 10 * a + digitVal c) 0
      if decide (1 ≤ m) && decide (m ≤ 12) && decide (1 ≤ d) && decide (d ≤ 31) &&
         validDate y m d then
        some (y, m, d)
      else none
    else none
  | _ => none

/-- Order-faithful numeric encoding of the fetch-date component of the score
tuple: a parsed date `(y, m, d)` (always a valid calendar date, so `m < 100`
and `d < 100`) maps to `y * 10000 + m * 100 + d`, and an unparseable date to
`datetime.min = 0001-01-01`, exactly as `fdt or datetime.min` does. -/
def dateNum (o : Option (Nat × Nat × Nat)) : Nat :=
  match o with
  | some t => t.1 * 10000 + t.2.1 * 100 + t.2.2
  | none => 10101

/-- The score tuple of `choose_keeper`:
`(normalized summary length, fetch date, original index)`. -/
def scoreKey (rows : List DetailRow) (i : Nat) : Nat × Nat × Nat :=
  ((norm_len (rows.getD i default).summary),
   dateNum (parse_date (rows.getD i default).fetched_at), i)

/-- Strict lexicographic order on score tuples — the order in which Python
compares the `(slen, fdt, i)` tuples of `choose_keeper`. -/
def keyLt (a b : Nat × Nat × Nat) : Prop :=
  a.1 < b.1 ∨ (a.1 = b.1 ∧ (a.2.1 < b.2.1 ∨ (a.2.1 = b.2.1 ∧ a.2.2 < b.2.2)))

instance (a b : Nat × Nat × Nat) : Decidable (keyLt a b) := by
  unfold keyLt; infer_instance

/-- `choose_keeper`: the index of the group member with the greatest score
tuple.  The source sorts the scored list in reverse and takes the head; as
the tuples are strictly totally ordered (the index component is unique),
this equals the fold computing the maximum. -/
def choose_keeper (idxs : List Nat) (rows : List DetailRow) : Nat :=
  match idxs with
  | [] => 0
  | j :: rest =>
    rest.foldl (fun best k => if keyLt (scoreKey rows best) (scoreKey rows k) then k else best) j

/-- The group of store positions whose whitespace-stripped `source_url`
equals `src` (the grouping `by_src` of `main`). -/
def dupGroup (rows : List DetailRow) (src : LC) : List Nat :=
  (List.range rows.length).filter
    (fun j => decide (pstrip ((rows.getD j default).source_url) = src))

/-- `main` of `dedupe_details.py` as the pure record transformation
(lines 98-125, file I/O at the boundary): ensure the deletion column, group
the positions by non-empty stripped `source_url`, and inside every group of
two or more members reset the flags to keeper = "0", rest = "1".  Groups are
disjoint, so the per-group loop is equivalently expressed per position. -/
def resolve (rows : List DetailRow) : List DetailRow :=
  let rows1 := rows.map ensure_deleted
  let n := rows1.length
  (List.range n).map (fun i =>
    let r := rows1.getD i default
    let src := pstrip r.source_url
    if src = [] then r
    else
      let idxs := (List.range n).filter
        (fun j => decide (pstrip ((rows1.getD j default).source_url) = src))
      if idxs.length ≤ 1 then r
      else if i = choose_keeper idxs rows1 then { r with deleted := ['0'] }
      else { r with deleted := ['1'] })

/-- The tuple of every `DetailRow` field other than `deleted`. -/
def nonDeletedFields (r : DetailRow) :=
  (r.id, r.site_key, r.fetched_at, r.title, r.start_date, r.deadline_date,
   r.summary, r.processed_summary, r.amount, r.fund_name, r.source_url,
   r.page_url, r.category1, r.category2, r.category3)

/-! ## `crawl_list.py`

`append_to_store` (lines 125-155).  The store file I/O is at the boundary:
`existing` is the parsed current store (ids as integers, as read by
`int(r["id"])`), and the function returns the batch of appended rows
together with its size (the returned `len(to_append)`).  The SHA-256 hex
digest is modelled as an explicit function parameter `hash`: the claims
quantify over the store contents and hold for the digest function itself. -/

structure UrlRow where
  id : Int
  site_key : LC
  url : LC
  dedupe_key : LC
  fetched_at : LC
  processed : LC
deriving DecidableEq

/-- `max([int(r["id"]) for r in existing]) if existing else 0`. -/
def max_id : List UrlRow → Int
  | [] => 0
  | r :: rest => rest.foldl (fun m x => max m x.id) r.id

/-- The append loop of `append_to_store`: skip a URL whose key is already in
the store, append the rest with consecutive ids starting at `i`. -/
def build_new (hash : LC → LC) (site_key today : LC) (keys : List LC) :
    List LC → Int → List UrlRow
  | [], _ => []
  | u :: rest, i =>
    if elemL (hash u) keys then build_new hash site_key today keys rest i
    else
      { id := i, site_key := site_key, url := u, dedupe_key := hash u,
        fetched_at := today, processed := ['0'] } ::
      build_new hash site_key today keys rest (i + 1)

/-- `append_to_store`: the appended rows and the returned new-count. -/
def append_to_store (hash : LC → LC) (existing : List UrlRow)
    (site_key : LC) (urls : List LC) (today : LC) : List UrlRow × Nat :=
  let keys := existing.map (fun r => r.dedupe_key)
  let new := build_new hash site_key today keys urls (1 + max_id existing)
  (new, new.length)

/-! `main` of `crawl_list.py`: the pagination loop (lines 196-214).
`fetchNext u` abstracts one loop iteration's external effects on page `u`:
`none` models a raised fetch/parse exception (the `except` branch breaks),
`some nxOpt` models a successful iteration whose `find_next_url` resolved to
`nxOpt`.  The loop guard `pages < MAX_PAGES` appears as the fuel, initially
`MAX_PAGES`, decremented once per iteration exactly as `pages` increments. -/

def MAX_PAGES : Nat := 50

/-- The body of `while page_url and pages < MAX_PAGES`, returning the list
of pages on which a fetch was attempted. -/
def crawl_pages_go (fetchNext : LC → Option (Option LC)) : Option LC → Nat → List LC
  | none, _ => []
  | some _, 0 => []
  | some u, Nat.succ fuel =>
    match fetchNext u with
    | none => [u]
    | some nxOpt =>
      let nx := if nxOpt = some u then none else nxOpt
      u :: crawl_pages_go fetchNext nx fuel

/-- One site's pagination walk from its seed URL. -/
def crawl_pages (fetchNext : LC → Option (Option LC)) (start : LC) : List LC :=
  crawl_pages_go fetchNext (some start) MAX_PAGES

/-! ## Lemmas: pagination (C8) -/

theorem crawl_pages_go_length_le (fetchNext : LC → Option (Option LC)) :
    ∀ (fuel : Nat) (st : Option LC), (crawl_pages_go fetchNext st fuel).length ≤ fuel := by
  intro fuel
  induction fuel with
  | zero =>
    intro st
    cases st <;> simp [crawl_pages_go]
  | succ n ih =>
    intro st
    cases st with
    | none => simp [crawl_pages_go]
    | some u =>
      unfold crawl_pages_go
      cases fetchNext u with
      | none => simp
      | some nxOpt =>
        simp only [List.length_cons]
        exact Nat.succ_le_succ (ih _)

/-- C8: pagination always terminates — at most `MAX_PAGES` (50) fetches per
site, and both a missing next link and a next link resolving to the current
page's own URL stop the walk after the current page, so a self-referential
next link cannot loop. -/
theorem crawl_pagination_bounded :
    (∀ (fetchNext : LC → Option (Option LC)) (start : LC),
        (crawl_pages fetchNext start).length ≤ MAX_PAGES) ∧
    (∀ (fetchNext : LC → Option (Option LC)) (u : LC) (fuel : Nat),
        fetchNext u = some none →
        crawl_pages_go fetchNext (some u) (fuel + 1) = [u]) ∧
    (∀ (fetchNext : LC → Option (Option LC)) (u : LC) (fuel : Nat),
        fetchNext u = some (some u) →
        crawl_pages_go fetchNext (some u) (fuel + 1) = [u]) := by
  refine ⟨?_, ?_, ?_⟩
  · intro fetchNext start
    exact crawl_pages_go_length_le fetchNext MAX_PAGES (some start)
  · intro fetchNext u fuel h
    unfold crawl_pages_go
    rw [h]
    simp [crawl_pages_go]
  · intro fetchNext u fuel h
    unfold crawl_pages_go
    rw [h]
    simp [crawl_pages_go]

/-- Witness for `crawl_pagination_bounded` at a concrete site: a page whose
next link always resolves to itself is fetched exactly once. -/
theorem crawl_pagination_bounded_witness :
    (crawl_pages (fun v => some (some v)) ['p']).length ≤ MAX_PAGES ∧
    crawl_pages (fun v => some (some v)) ['p'] = [['p']] ∧
    crawl_pages_go (fun _ => some none) (some ['q']) 8 = [['q']] := by
  refine ⟨crawl_pagination_bounded.1 _ _, ?_, ?_⟩
  · exact crawl_pagination_bounded.2.2 (fun v => some (some v)) ['p'] 49 rfl
  · exact crawl_pagination_bounded.2.1 (fun _ => some none) ['q'] 7 rfl

/-! ## Lemmas: the URL store append (C7) -/

theorem foldl_max_ge_init :
    ∀ (l : List UrlRow) (a : Int), a ≤ l.foldl (fun m r => max m r.id) a := by
  intro l
  induction l with
  | nil => intro a; exact le_refl a
  | cons r rest ih =>
    intro a
    calc a ≤ max a r.id := le_max_left _ _
      _ ≤ _ := ih (max a r.id)

theorem foldl_max_ge_mem :
    ∀ (l : List UrlRow) (a : Int) (x : UrlRow), x ∈ l →
      x.id ≤ l.foldl (fun m r => max m r.id) a := by
  intro l
  induction l with
  | nil => intro a x hx; cases hx
  | cons r rest ih =>
    intro a x hx
    rcases List.mem_cons.mp hx with rfl | hx
    · calc x.id ≤ max a x.id := le_max_right _ _
        _ ≤ _ := foldl_max_ge_init rest (max a x.id)
    · exact ih (max a r.id) x hx

theorem max_id_ge (rows : List UrlRow) (x : UrlRow) (hx : x ∈ rows) : x.id ≤ max_id rows := by
  cases rows with
  | nil => cases hx
  | cons r rest =>
    unfold max_id
    rcases List.mem_cons.mp hx with rfl | hx
    · exact foldl_max_ge_init rest x.id
    · exact foldl_max_ge_mem rest r.id x hx

theorem build_new_id_lb (hash : LC → LC) (sk td : LC) (keys : List LC) :
    ∀ (urls : List LC) (i : Int) (row : UrlRow),
      row ∈ build_new hash sk td keys urls i → i ≤ row.id := by
  intro urls
  induction urls with
  | nil => intro i row h; simp [build_new] at h
  | cons u rest ih =>
    intro i row h
    unfold build_new at h
    by_cases hk : elemL (hash u) keys = true
    · rw [if_pos hk] at h
      exact ih i row h
    · rw [if_neg hk] at h
      rcases List.mem_cons.mp h with rfl | h
      · exact le_refl _
      · have := ih (i + 1) row h
        omega

theorem build_new_fields (hash : LC → LC) (sk td : LC) (keys : List LC) :
    ∀ (urls : List LC) (i : Int) (row : UrlRow),
      row ∈ build_new hash sk td keys urls i →
      row.site_key = sk ∧ row.fetched_at = td ∧ row.processed = ['0'] ∧
      row.dedupe_key = hash row.url ∧ row.url ∈ urls := by
  intro urls
  induction urls with
  | nil => intro i row h; simp [build_new] at h
  | cons u rest ih =>
    intro i row h
    unfold build_new at h
    by_cases hk : elemL (hash u) keys = true
    · rw [if_pos hk] at h
      have := ih i row h
      exact ⟨this.1, this.2.1, this.2.2.1, this.2.2.2.1,
        List.mem_cons_of_mem u this.2.2.2.2⟩
    · rw [if_neg hk] at h
      rcases List.mem_cons.mp h with rfl | h
      · exact ⟨rfl, rfl, rfl, rfl, List.mem_cons_self u rest⟩
      · have := ih (i + 1) row h
        exact ⟨this.1, this.2.1, this.2.2.1, this.2.2.2.1,
          List.mem_cons_of_mem u this.2.2.2.2⟩

theorem build_new_chain (hash : LC → LC) (sk td : LC) (keys : List LC) :
    ∀ (urls : List LC) (i : Int),
      List.Chain' (fun x y => x.id < y.id) (build_new hash sk td keys urls i) := by
  intro urls
  induction urls with
  | nil => intro i; simp [build_new]
  | cons u rest ih =>
    intro i
    unfold build_new
    by_cases hk : elemL (hash u) keys = true
    · rw [if_pos hk]; exact ih i
    · rw [if_neg hk]
      rw [List.chain'_cons']
      refine ⟨?_, ih (i + 1)⟩
      intro b hb
      have hbmem : b ∈ build_new hash sk td keys rest (i + 1) :=
        List.mem_of_mem_head? hb
      have := build_new_id_lb hash sk td keys rest (i + 1) b hbmem
      simp only
      omega

theorem build_new_all_known (hash : LC → LC) (sk td : LC) (keys : List LC) :
    ∀ (urls : List LC) (i : Int),
      (∀ u ∈ urls, elemL (hash u) keys = true) →
      build_new hash sk td keys urls i = [] := by
  intro urls
  induction urls with
  | nil => intro i _; rfl
  | cons u rest ih =>
    intro i hall
    unfold build_new
    rw [if_pos (hall u (List.mem_cons_self u rest))]
    exact ih i (fun v hv => hall v (List.mem_cons_of_mem u hv))

theorem build_new_appends (hash : LC → LC) (sk td : LC) (keys : List LC) :
    ∀ (urls : List LC) (i : Int) (u : LC), u ∈ urls → elemL (hash u) keys = false →
      ∃ row ∈ build_new hash sk td keys urls i, row.url = u := by
  intro urls
  induction urls with
  | nil => intro i u hu; cases hu
  | cons v rest ih =>
    intro i u hu hnew
    unfold build_new
    by_cases hk : elemL (hash v) keys = true
    · rw [if_pos hk]
      rcases List.mem_cons.mp hu with rfl | hu
      · rw [hnew] at hk; cases hk
      · exact ih i u hu hnew
    · rw [if_neg hk]
      rcases List.mem_cons.mp hu with rfl | hu
      · exact ⟨_, List.mem_cons_self _ _, rfl⟩
      · obtain ⟨row, hrow, hurl⟩ := ih (i + 1) u hu hnew
        exact ⟨row, List.mem_cons_of_mem _ hrow, hurl⟩

theorem elemL_iff_mem [DecidableEq α] (x : α) : ∀ (l : List α), elemL x l = true ↔ x ∈ l := by
  intro l
  induction l with
  | nil => simp [elemL]
  | cons y r ih =>
    unfold elemL
    by_cases hxy : x = y
    · subst hxy; simp
    · rw [if_neg hxy]
      simp [ih, hxy]

/-- C7: appending a batch of candidate URLs to the URL store never re-adds a
URL whose identity key is already present (so a batch of only known URLs
reports a new-count of 0), and every genuinely new URL is appended with the
site key, the fetch date, `processed = "0"`, its identity key, and a fresh
id strictly greater than every id already in the store, ids strictly
increasing within the batch. -/
theorem append_to_store_dedup_monotonic (hash : LC → LC) (existing : List UrlRow)
    (site_key : LC) (urls : List LC) (today : LC) :
    ((∀ u ∈ urls, hash u ∈ existing.map (fun r => r.dedupe_key)) →
       (append_to_store hash existing site_key urls today).1 = [] ∧
       (append_to_store hash existing site_key urls today).2 = 0) ∧
    (∀ u ∈ urls, hash u ∉ existing.map (fun r => r.dedupe_key) →
       ∃ row ∈ (append_to_store hash existing site_key urls today).1,
         row.url = u ∧ row.site_key = site_key ∧ row.fetched_at = today ∧
         row.processed = ['0'] ∧ row.dedupe_key = hash u) ∧
    (∀ row ∈ (append_to_store hash existing site_key urls today).1,
       ∀ ex ∈ existing, ex.id < row.id) ∧
    List.Chain' (fun x y => x.id < y.id)
      (append_to_store hash existing site_key urls today).1 ∧
    (append_to_store hash existing site_key urls today).2 =
      (append_to_store hash existing site_key urls today).1.length := by
  refine ⟨?_, ?_, ?_, ?_, rfl⟩
  · intro hall
    have hnil : build_new hash site_key today (existing.map (fun r => r.dedupe_key)) urls
        (1 + max_id existing) = [] := by
      refine build_new_all_known _ _ _ _ _ _ ?_
      intro u hu
      exact (elemL_iff_mem _ _).mpr (hall u hu)
    constructor
    · exact hnil
    · show (build_new _ _ _ _ _ _).length = 0
      rw [hnil]; rfl
  · intro u hu hnew
    have hfalse : elemL (hash u) (existing.map (fun r => r.dedupe_key)) = false := by
      cases hb : elemL (hash u) (existing.map (fun r => r.dedupe_key)) with
      | true => exact absurd ((elemL_iff_mem _ _).mp hb) hnew
      | false => rfl
    obtain ⟨row, hrow, hurl⟩ := build_new_appends hash site_key today _ urls _ u hu hfalse
    have hf := build_new_fields hash site_key today _ urls _ row hrow
    exact ⟨row, hrow, hurl, hf.1, hf.2.1, hf.2.2.1, by rw [hf.2.2.2.1, hurl]⟩
  · intro row hrow ex hex
    have h1 := build_new_id_lb hash site_key today _ urls _ row hrow
    have h2 := max_id_ge existing ex hex
    omega
  · exact build_new_chain hash site_key today _ urls _

/-- Witness for `append_to_store_dedup_monotonic`: a store holding one row
with key "u" and id 3; re-appending "u" adds nothing, appending "v" creates
a row with id 4 > 3 carrying the site key, date and processed flag. -/
theorem append_to_store_dedup_monotonic_witness :
    (append_to_store (fun u => u)
        [{ id := 3, site_key := ['s'], url := ['u'], dedupe_key := ['u'],
           fetched_at := ['d'], processed := ['1'] }]
        ['s'] [['u']] ['t']).1 = [] ∧
    (∃ row ∈ (append_to_store (fun u => u)
        [{ id := 3, site_key := ['s'], url := ['u'], dedupe_key := ['u'],
           fetched_at := ['d'], processed := ['1'] }]
        ['s'] [['u'], ['v']] ['t']).1,
      row.url = ['v'] ∧ row.site_key = ['s'] ∧ row.fetched_at = ['t'] ∧
      row.processed = ['0'] ∧ row.dedupe_key = ['v']) := by
  constructor
  · exact ((append_to_store_dedup_monotonic (fun u => u) _ ['s'] [['u']] ['t']).1
      (by decide)).1
  · exact (append_to_store_dedup_monotonic (fun u => u) _ ['s'] [['u'], ['v']] ['t']).2.1
      ['v'] (by decide) (by decide)

/-! ## Lemmas: date normalization (C9) -/

theorem norm_date_eq_cases (text : LC) (dflt : Option Nat) (nowYear : Nat) :
    norm_date text dflt nowYear =
      (if pstrip text = [] then none
       else
         match searchYMD (pstrip text) with
         | some (y, m, d) => if validDate y m d then some (fmtDate y m d) else none
         | none =>
           match searchMD sep2Chars (pstrip text) with
           | some (m, d) =>
             if validDate (resolve_default dflt nowYear) m d then
               some (fmtDate (resolve_default dflt nowYear) m d)
             else none
           | none => none) := rfl

theorem norm_date_md_of_searches (text : LC) (dflt : Option Nat) (nowYear m d : Nat)
    (hymd : searchYMD (pstrip text) = none)
    (hmd : searchMD sep2Chars (pstrip text) = some (m, d))
    (hv : validDate (resolve_default dflt nowYear) m d = true) :
    norm_date text dflt nowYear =
      some (fmtDate (resolve_default dflt nowYear) m d) := by
  have h0 : ¬ pstrip text = [] := by
    intro h
    rw [h] at hmd
    exact absurd hmd (by simp [searchMD])
  rw [norm_date_eq_cases, if_neg h0, hymd, hmd]
  simp [hv]

/-- C9: `_norm_date` is total with an optional result: the leftmost
year-month-day match (year-glyph / slash / dot / hyphen separators), when it
forms a valid calendar date, yields its normalized rendering; otherwise a
bare month-day match completed with the supplied-or-current year yields its
rendering when valid; every other input — including a syntactic match that
is not a valid calendar date, such as month 13 — yields `none` rather than
an error, and every produced value is the rendering of a valid date. -/
theorem norm_date_total_shape :
    (∀ (text : LC) (dflt : Option Nat) (nowYear : Nat),
        norm_date text dflt nowYear = none ∨
        ∃ y m d, validDate y m d = true ∧
          norm_date text dflt nowYear = some (fmtDate y m d)) ∧
    (∀ (text : LC) (dflt : Option Nat) (nowYear : Nat) (y m d : Nat),
        searchYMD (pstrip text) = some (y, m, d) → validDate y m d = true →
        norm_date text dflt nowYear = some (fmtDate y m d)) ∧
    (∀ (text : LC) (dflt : Option Nat) (nowYear : Nat) (m d : Nat),
        searchYMD (pstrip text) = none →
        searchMD sep2Chars (pstrip text) = some (m, d) →
        validDate (resolve_default dflt nowYear) m d = true →
        norm_date text dflt nowYear =
          some (fmtDate (resolve_default dflt nowYear) m d)) ∧
    (∀ (dflt : Option Nat) (nowYear : Nat),
        norm_date ['2', '0', '2', '5', '年', '1', '3', '月', '1', '日'] dflt nowYear = none) := by
  refine ⟨?_, ?_, ?_, ?_⟩
  · intro text dflt nowYear
    rw [norm_date_eq_cases]
    by_cases h0 : pstrip text = []
    · rw [if_pos h0]; exact Or.inl rfl
    · rw [if_neg h0]
      cases hs : searchYMD (pstrip text) with
      | some t =>
        obtain ⟨y, m, d⟩ := t
        by_cases hv : validDate y m d = true
        · exact Or.inr ⟨y, m, d, hv, by simp [hv]⟩
        · exact Or.inl (by simp [hv])
      | none =>
        cases hm : searchMD sep2Chars (pstrip text) with
        | some t =>
          obtain ⟨m, d⟩ := t
          by_cases hv : validDate (resolve_default dflt nowYear) m d = true
          · exact Or.inr ⟨_, m, d, hv, by simp [hv]⟩
          · exact Or.inl (by simp [hv])
        | none => exact Or.inl rfl
  · intro text dflt nowYear y m d hs hv
    have h0 : ¬ pstrip text = [] := by
      intro h
      rw [h] at hs
      exact absurd hs (by simp [searchYMD])
    rw [norm_date_eq_cases, if_neg h0, hs]
    simp [hv]
  · intro text dflt nowYear m d hs hm hv
    exact norm_date_md_of_searches text dflt nowYear m d hs hm hv
  · intro dflt nowYear
    rfl

/-- Witness for `norm_date_total_shape`: "2025-09-01" normalizes via the
year-month-day clause, and "9/1" with supplied default year 2025 via the
bare month-day clause. -/
theorem norm_date_total_shape_witness :
    norm_date ['2', '0', '2', '5', '-', '0', '9', '-', '0', '1'] none 2000 =
      some (fmtDate 2025 9 1) ∧
    norm_date ['9', '/', '1'] (some 2025) 2000 = some (fmtDate 2025 9 1) := by
  constructor
  · exact norm_date_total_shape.2.1 _ none 2000 2025 9 1 (by decide) (by decide)
  · exact norm_date_total_shape.2.2.1 _ (some 2025) 2000 9 1 (by decide) (by decide) (by decide)

/-! ## Lemmas: duplicate resolution (C1, C4, C5, C6) -/

theorem keyLt_irrefl (a : Nat × Nat × Nat) : ¬ keyLt a a := by
  obtain ⟨a1, a2, a3⟩ := a
  simp only [keyLt]
  omega

theorem keyLt_trans {a b c : Nat × Nat × Nat} (h1 : keyLt a b) (h2 : keyLt b c) : keyLt a c := by
  obtain ⟨a1, a2, a3⟩ := a
  obtain ⟨b1, b2, b3⟩ := b
  obtain ⟨c1, c2, c3⟩ := c
  simp only [keyLt] at h1 h2 ⊢
  omega

theorem keyLt_ge_trans {a b c : Nat × Nat × Nat} (h1 : ¬ keyLt a b) (h2 : ¬ keyLt b c) :
    ¬ keyLt a c := by
  obtain ⟨a1, a2, a3⟩ := a
  obtain ⟨b1, b2, b3⟩ := b
  obtain ⟨c1, c2, c3⟩ := c
  simp only [keyLt] at h1 h2 ⊢
  omega

theorem keyLt_total_of_ne (a b : Nat × Nat × Nat) (h : a.2.2 ≠ b.2.2) :
    keyLt a b ∨ keyLt b a := by
  obtain ⟨a1, a2, a3⟩ := a
  obtain ⟨b1, b2, b3⟩ := b
  simp only [keyLt]
  simp only at h
  omega

theorem keeper_foldl_mem (rows : List DetailRow) :
    ∀ (rest : List Nat) (j : Nat),
      (rest.foldl (fun best k =>
        if keyLt (scoreKey rows best) (scoreKey rows k) then k else best) j) ∈ j :: rest := by
  intro rest
  induction rest with
  | nil => intro j; exact List.mem_cons_self j []
  | cons k tail ih =>
    intro j
    show (tail.foldl _ (if keyLt (scoreKey rows j) (scoreKey rows k) then k else j)) ∈ _
    by_cases h : keyLt (scoreKey rows j) (scoreKey rows k)
    · rw [if_pos h]
      exact List.mem_cons_of_mem j (ih k)
    · rw [if_neg h]
      rcases List.mem_cons.mp (ih j) with he | ht
      · rw [he]; exact List.mem_cons_self j (k :: tail)
      · exact List.mem_cons_of_mem j (List.mem_cons_of_mem k ht)

theorem keeper_foldl_not_lt (rows : List DetailRow) :
    ∀ (rest : List Nat) (j : Nat) (x : Nat), x ∈ j :: rest →
      ¬ keyLt
        (scoreKey rows (rest.foldl (fun best k =>
          if keyLt (scoreKey rows best) (scoreKey rows k) then k else best) j))
        (scoreKey rows x) := by
  intro rest
  induction rest with
  | nil =>
    intro j x hx
    rcases List.mem_cons.mp hx with rfl | hx
    · exact keyLt_irrefl _
    · cases hx
  | cons k tail ih =>
    intro j x hx
    show ¬ keyLt (scoreKey rows (tail.foldl _
      (if keyLt (scoreKey rows j) (scoreKey rows k) then k else j))) _
    by_cases h : keyLt (scoreKey rows j) (scoreKey rows k)
    · rw [if_pos h]
      rcases List.mem_cons.mp hx with he | hx
      · have h1 := ih k k (List.mem_cons_self k tail)
        rw [he]
        intro hc
        exact h1 (keyLt_trans hc h)
      · exact ih k x hx
    · rw [if_neg h]
      rcases List.mem_cons.mp hx with he | hx
      · rw [he]; exact ih j j (List.mem_cons_self j tail)
      · rcases List.mem_cons.mp hx with he | hx
        · rw [he]; exact keyLt_ge_trans (ih j j (List.mem_cons_self j tail)) h
        · exact ih j x (List.mem_cons_of_mem j hx)

theorem choose_keeper_mem (idxs : List Nat) (rows : List DetailRow) (h : idxs ≠ []) :
    choose_keeper idxs rows ∈ idxs := by
  cases idxs with
  | nil => exact absurd rfl h
  | cons j rest => exact keeper_foldl_mem rows rest j

theorem choose_keeper_not_lt (idxs : List Nat) (rows : List DetailRow) (h : idxs ≠ [])
    (x : Nat) (hx : x ∈ idxs) :
    ¬ keyLt (scoreKey rows (choose_keeper idxs rows)) (scoreKey rows x) := by
  cases idxs with
  | nil => exact absurd rfl h
  | cons j rest => exact keeper_foldl_not_lt rows rest j x hx

theorem scoreKey_third (rows : List DetailRow) (i : Nat) : (scoreKey rows i).2.2 = i := rfl

theorem choose_keeper_gt (idxs : List Nat) (rows : List DetailRow) (h : idxs ≠ [])
    (x : Nat) (hx : x ∈ idxs) (hne : x ≠ choose_keeper idxs rows) :
    keyLt (scoreKey rows x) (scoreKey rows (choose_keeper idxs rows)) := by
  have h3 : (scoreKey rows x).2.2 ≠ (scoreKey rows (choose_keeper idxs rows)).2.2 := by
    rw [scoreKey_third, scoreKey_third]; exact hne
  rcases keyLt_total_of_ne _ _ h3 with hlt | hlt
  · exact hlt
  · exact absurd hlt (choose_keeper_not_lt idxs rows h x hx)

theorem ensure_source (r : DetailRow) : (ensure_deleted r).source_url = r.source_url := by
  unfold ensure_deleted; split <;> rfl

theorem ensure_summary (r : DetailRow) : (ensure_deleted r).summary = r.summary := by
  unfold ensure_deleted; split <;> rfl

theorem ensure_fetched (r : DetailRow) : (ensure_deleted r).fetched_at = r.fetched_at := by
  unfold ensure_deleted; split <;> rfl

theorem ensure_nonDeleted (r : DetailRow) :
    nonDeletedFields (ensure_deleted r) = nonDeletedFields r := by
  unfold ensure_deleted; split <;> rfl

theorem ensure_deleted_val (r : DetailRow) :
    (ensure_deleted r).deleted = if r.deleted = [] then ['0'] else r.deleted := by
  unfold ensure_deleted; split <;> simp_all

theorem ensure_ne_nil (r : DetailRow) : (ensure_deleted r).deleted ≠ [] := by
  unfold ensure_deleted
  split
  · simp
  · assumption

theorem ensure_of_ne_nil (r : DetailRow) (h : r.deleted ≠ []) : ensure_deleted r = r := by
  unfold ensure_deleted
  rw [if_neg h]

theorem getD_map_of_lt (f : α → β) (l : List α) (i : Nat) (hi : i < l.length)
    (d : β) (d' : α) : (l.map f).getD i d = f (l.getD i d') := by
  rw [List.getD_eq_getElem?_getD, List.getD_eq_getElem?_getD, List.getElem?_map,
    List.getElem?_eq_getElem hi]
  rfl

theorem getD_of_ge (l : List α) (i : Nat) (hi : l.length ≤ i) (d : α) : l.getD i d = d := by
  rw [List.getD_eq_getElem?_getD, List.getElem?_eq_none hi]
  rfl

theorem getD_map_range (f : Nat → β) (n i : Nat) (hi : i < n) (d : β) :
    ((List.range n).map f).getD i d = f i := by
  have h1 : i < (List.range n).length := by simpa using hi
  rw [getD_map_of_lt f _ i h1 d 0]
  congr 1
  rw [List.getD_eq_getElem?_getD, List.getElem?_range hi]
  rfl

theorem map_ensure_getD_source (rows : List DetailRow) (j : Nat) :
    ((rows.map ensure_deleted).getD j default).source_url =
      ((rows.getD j default)).source_url := by
  rcases Nat.lt_or_ge j rows.length with h | h
  · rw [getD_map_of_lt ensure_deleted rows j h default default, ensure_source]
  · rw [getD_of_ge _ j (by simpa using h) default, getD_of_ge _ j h default]

theorem map_ensure_getD_summary (rows : List DetailRow) (j : Nat) :
    ((rows.map ensure_deleted).getD j default).summary =
      ((rows.getD j default)).summary := by
  rcases Nat.lt_or_ge j rows.length with h | h
  · rw [getD_map_of_lt ensure_deleted rows j h default default, ensure_summary]
  · rw [getD_of_ge _ j (by simpa using h) default, getD_of_ge _ j h default]

theorem map_ensure_getD_fetched (rows : List DetailRow) (j : Nat) :
    ((rows.map ensure_deleted).getD j default).fetched_at =
      ((rows.getD j default)).fetched_at := by
  rcases Nat.lt_or_ge j rows.length with h | h
  · rw [getD_map_of_lt ensure_deleted rows j h default default, ensure_fetched]
  · rw [getD_of_ge _ j (by simpa using h) default, getD_of_ge _ j h default]

theorem scoreKey_map_ensure (rows : List DetailRow) (i : Nat) :
    scoreKey (rows.map ensure_deleted) i = scoreKey rows i := by
  unfold scoreKey
  rw [map_ensure_getD_summary, map_ensure_getD_fetched]

theorem choose_keeper_map_ensure (idxs : List Nat) (rows : List DetailRow) :
    choose_keeper idxs (rows.map ensure_deleted) = choose_keeper idxs rows := by
  unfold choose_keeper
  cases idxs with
  | nil => rfl
  | cons j rest => simp only [scoreKey_map_ensure]

/-- Extensional per-position characterization of `resolve`, proved in
`resolve_getD`: the grouping, the group-size test, and the keeper choice,
expressed over the original rows (legitimate because `ensure_deleted_col`
only touches the deletion flag). -/
def resolveSpec (rows : List DetailRow) (i : Nat) : DetailRow :=
  let r := ensure_deleted (rows.getD i default)
  let src := pstrip r.source_url
  if src = [] then r
  else if (dupGroup rows src).length ≤ 1 then r
  else if i = choose_keeper (dupGroup rows src) rows then { r with deleted := ['0'] }
  else { r with deleted := ['1'] }

theorem resolve_length (rows : List DetailRow) : (resolve rows).length = rows.length := by
  unfold resolve
  simp

theorem resolve_getD (rows : List DetailRow) (i : Nat) (hi : i < rows.length) :
    (resolve rows).getD i default = resolveSpec rows i := by
  have e0 : resolve rows = (List.range (rows.map ensure_deleted).length).map (fun i =>
      let r := (rows.map ensure_deleted).getD i default
      let src := pstrip r.source_url
      if src = [] then r
      else
        let idxs := (List.range (rows.map ensure_deleted).length).filter
          (fun j => decide (pstrip (((rows.map ensure_deleted).getD j default).source_url) = src))
        if idxs.length ≤ 1 then r
        else if i = choose_keeper idxs (rows.map ensure_deleted) then { r with deleted := ['0'] }
        else { r with deleted := ['1'] }) := rfl
  rw [e0, getD_map_range _ _ i (by simpa using hi)]
  show (let r := (rows.map ensure_deleted).getD i default
        let src := pstrip r.source_url
        if src = [] then r
        else
          let idxs := (List.range (rows.map ensure_deleted).length).filter
            (fun j => decide (pstrip (((rows.map ensure_deleted).getD j default).source_url) = src))
          if idxs.length ≤ 1 then r
          else if i = choose_keeper idxs (rows.map ensure_deleted) then { r with deleted := ['0'] }
          else { r with deleted := ['1'] }) = resolveSpec rows i
  simp only [map_ensure_getD_source, List.length_map, choose_keeper_map_ensure,
    getD_map_of_lt ensure_deleted rows i hi default default]
  rfl

theorem resolveSpec_source (rows : List DetailRow) (i : Nat) :
    (resolveSpec rows i).source_url = ((rows.getD i default)).source_url := by
  simp only [resolveSpec]
  split
  · exact ensure_source _
  · split
    · exact ensure_source _
    · split <;> exact ensure_source _

theorem resolveSpec_summary (rows : List DetailRow) (i : Nat) :
    (resolveSpec rows i).summary = ((rows.getD i default)).summary := by
  simp only [resolveSpec]
  split
  · exact ensure_summary _
  · split
    · exact ensure_summary _
    · split <;> exact ensure_summary _

theorem resolveSpec_fetched (rows : List DetailRow) (i : Nat) :
    (resolveSpec rows i).fetched_at = ((rows.getD i default)).fetched_at := by
  simp only [resolveSpec]
  split
  · exact ensure_fetched _
  · split
    · exact ensure_fetched _
    · split <;> exact ensure_fetched _

theorem resolveSpec_nonDeleted (rows : List DetailRow) (i : Nat) :
    nonDeletedFields (resolveSpec rows i) = nonDeletedFields (rows.getD i default) := by
  simp only [resolveSpec]
  split
  · exact ensure_nonDeleted _
  · split
    · exact ensure_nonDeleted _
    · split <;> exact ensure_nonDeleted _

theorem resolveSpec_deleted_ne_nil (rows : List DetailRow) (i : Nat) :
    (resolveSpec rows i).deleted ≠ [] := by
  simp only [resolveSpec]
  split
  · exact ensure_ne_nil _
  · split
    · exact ensure_ne_nil _
    · split <;> simp

theorem resolveSpec_deleted (rows : List DetailRow) (i : Nat) :
    (resolveSpec rows i).deleted =
      if pstrip ((rows.getD i default).source_url) = [] then
        (ensure_deleted (rows.getD i default)).deleted
      else if (dupGroup rows (pstrip ((rows.getD i default).source_url))).length ≤ 1 then
        (ensure_deleted (rows.getD i default)).deleted
      else if i = choose_keeper (dupGroup rows (pstrip ((rows.getD i default).source_url))) rows then
        ['0']
      else ['1'] := by
  simp only [resolveSpec, ensure_source]
  split
  · rfl
  · split
    · rfl
    · split <;> rfl

theorem resolve_getD_source (rows : List DetailRow) (j : Nat) :
    ((resolve rows).getD j default).source_url = ((rows.getD j default)).source_url := by
  rcases Nat.lt_or_ge j rows.length with h | h
  · rw [resolve_getD rows j h, resolveSpec_source]
  · rw [getD_of_ge _ j (by rw [resolve_length]; exact h) default, getD_of_ge _ j h default]

theorem resolve_getD_summary (rows : List DetailRow) (j : Nat) :
    ((resolve rows).getD j default).summary = ((rows.getD j default)).summary := by
  rcases Nat.lt_or_ge j rows.length with h | h
  · rw [resolve_getD rows j h, resolveSpec_summary]
  · rw [getD_of_ge _ j (by rw [resolve_length]; exact h) default, getD_of_ge _ j h default]

theorem resolve_getD_fetched (rows : List DetailRow) (j : Nat) :
    ((resolve rows).getD j default).fetched_at = ((rows.getD j default)).fetched_at := by
  rcases Nat.lt_or_ge j rows.length with h | h
  · rw [resolve_getD rows j h, resolveSpec_fetched]
  · rw [getD_of_ge _ j (by rw [resolve_length]; exact h) default, getD_of_ge _ j h default]

theorem scoreKey_resolve (rows : List DetailRow) (i : Nat) :
    scoreKey (resolve rows) i = scoreKey rows i := by
  unfold scoreKey
  rw [resolve_getD_summary, resolve_getD_fetched]

theorem dupGroup_resolve (rows : List DetailRow) (src : LC) :
    dupGroup (resolve rows) src = dupGroup rows src := by
  unfold dupGroup
  rw [resolve_length]
  congr 1
  funext j
  rw [resolve_getD_source]

theorem choose_keeper_resolve (idxs : List Nat) (rows : List DetailRow) :
    choose_keeper idxs (resolve rows) = choose_keeper idxs rows := by
  unfold choose_keeper
  cases idxs with
  | nil => rfl
  | cons j rest => simp only [scoreKey_resolve]

theorem dupGroup_mem (rows : List DetailRow) (src : LC) (j : Nat) :
    j ∈ dupGroup rows src ↔
      j < rows.length ∧ pstrip ((rows.getD j default).source_url) = src := by
  unfold dupGroup
  simp [List.mem_filter, List.mem_range]

/-- C6: duplicate resolution touches at most the `deleted` field: the record
count and order are unchanged (no physical removal) and at every position
all fields other than `deleted` are identical before and after. -/
theorem resolve_touches_only_deleted (rows : List DetailRow) :
    (resolve rows).length = rows.length ∧
    ∀ i : Nat, nonDeletedFields ((resolve rows).getD i default) =
      nonDeletedFields (rows.getD i default) := by
  refine ⟨resolve_length rows, ?_⟩
  intro i
  rcases Nat.lt_or_ge i rows.length with h | h
  · rw [resolve_getD rows i h, resolveSpec_nonDeleted]
  · rw [getD_of_ge _ i (by rw [resolve_length]; exact h) default, getD_of_ge _ i h default]

/-- C5 (amended): a record whose whitespace-stripped `source_url` is empty,
or which is the only record carrying its stripped `source_url`, keeps its
deletion flag, except that a missing/empty flag is initialized to "0" by
`ensure_deleted_col`. -/
theorem resolve_scoped_update (rows : List DetailRow) (i : Nat) (hi : i < rows.length)
    (h : pstrip ((rows.getD i default).source_url) = [] ∨
         (dupGroup rows (pstrip ((rows.getD i default).source_url))).length ≤ 1) :
    ((resolve rows).getD i default).deleted =
      if (rows.getD i default).deleted = [] then ['0']
      else (rows.getD i default).deleted := by
  rw [resolve_getD rows i hi, resolveSpec_deleted]
  rcases h with h | h
  · rw [if_pos h, ensure_deleted_val]
  · by_cases h1 : pstrip ((rows.getD i default).source_url) = []
    · rw [if_pos h1, ensure_deleted_val]
    · rw [if_neg h1, if_pos h, ensure_deleted_val]

def w5row : DetailRow := { (default : DetailRow) with deleted := ['1'] }

/-- Witness for `resolve_scoped_update`: a lone record with empty
`source_url` and flag "1" keeps its flag. -/
theorem resolve_scoped_update_witness :
    ((resolve [w5row]).getD 0 default).deleted =
      if ([w5row].getD 0 default).deleted = [] then ['0']
      else ([w5row].getD 0 default).deleted :=
  resolve_scoped_update [w5row] 0 (by decide) (Or.inl (by decide))

def cx5r0 : DetailRow := { (default : DetailRow) with source_url := ['a'], deleted := ['0'] }

def cx5r1 : DetailRow :=
  { (default : DetailRow) with source_url := ['a', ' '], summary := ['x'], deleted := ['0'] }

/-- Counterexample to C5 as literally stated: in the two-record store below,
the first record is the only one whose `source_url` equals the non-empty
string "a" (the other record's `source_url` is "a " with a trailing blank),
yet resolution flips its deletion flag from "0" to "1", because the engine
groups by *whitespace-stripped* `source_url` and both records strip to
"a". -/
theorem resolve_scoped_update_cx :
    ([cx5r0, cx5r1].getD 0 default).source_url = ['a'] ∧
    (['a'] : LC) ≠ [] ∧
    ([cx5r0, cx5r1].getD 1 default).source_url ≠ ['a'] ∧
    [cx5r0, cx5r1].length = 2 ∧
    ([cx5r0, cx5r1].getD 0 default).deleted = ['0'] ∧
    ((resolve [cx5r0, cx5r1]).getD 0 default).deleted = ['1'] := by decide

theorem resolve_deleted_grouped (rows : List DetailRow) (src : LC) (hsrc : src ≠ [])
    (hlen : 2 ≤ (dupGroup rows src).length) (j : Nat) (hj : j ∈ dupGroup rows src) :
    ((resolve rows).getD j default).deleted =
      if j = choose_keeper (dupGroup rows src) rows then ['0'] else ['1'] := by
  obtain ⟨hjlt, hjsrc⟩ := (dupGroup_mem rows src j).mp hj
  rw [resolve_getD rows j hjlt, resolveSpec_deleted, hjsrc]
  rw [if_neg hsrc, if_neg (by omega)]

/-- C1 (amended): in every group of two or more records whose
whitespace-stripped `source_url` equals the same non-empty string, exactly
one member — the one with the strictly greatest score tuple
`(whitespace-collapsed summary length, parsed fetch date with unparseable
dates as the minimum date, original position)` — ends with flag "0", and
every other member ends with flag "1". -/
theorem resolve_keeper_unique (rows : List DetailRow) (src : LC) (hsrc : src ≠ [])
    (hlen : 2 ≤ (dupGroup rows src).length) :
    ∃ k ∈ dupGroup rows src,
      ((resolve rows).getD k default).deleted = ['0'] ∧
      (∀ j ∈ dupGroup rows src, j ≠ k → ((resolve rows).getD j default).deleted = ['1']) ∧
      (∀ j ∈ dupGroup rows src, j ≠ k → keyLt (scoreKey rows j) (scoreKey rows k)) := by
  have hne : dupGroup rows src ≠ [] := by
    intro h
    rw [h] at hlen
    simp at hlen
  refine ⟨choose_keeper (dupGroup rows src) rows, choose_keeper_mem _ _ hne, ?_, ?_, ?_⟩
  · rw [resolve_deleted_grouped rows src hsrc hlen _ (choose_keeper_mem _ _ hne), if_pos rfl]
  · intro j hj hne2
    rw [resolve_deleted_grouped rows src hsrc hlen j hj, if_neg hne2]
  · intro j hj hne2
    exact choose_keeper_gt _ rows hne j hj hne2

def w1r0 : DetailRow :=
  { (default : DetailRow) with source_url := ['u'], summary := ['a', 'a'], deleted := ['0'] }

def w1r1 : DetailRow :=
  { (default : DetailRow) with source_url := ['u'], summary := ['b'], deleted := ['0'] }

/-- Witness for `resolve_keeper_unique`: two records sharing source "u"; the
longer-summary record is the unique keeper. -/
theorem resolve_keeper_unique_witness :
    ∃ k ∈ dupGroup [w1r0, w1r1] ['u'],
      ((resolve [w1r0, w1r1]).getD k default).deleted = ['0'] ∧
      (∀ j ∈ dupGroup [w1r0, w1r1] ['u'], j ≠ k →
        ((resolve [w1r0, w1r1]).getD j default).deleted = ['1']) ∧
      (∀ j ∈ dupGroup [w1r0, w1r1] ['u'], j ≠ k →
        keyLt (scoreKey [w1r0, w1r1] j) (scoreKey [w1r0, w1r1] k)) :=
  resolve_keeper_unique [w1r0, w1r1] ['u'] (by decide) (by decide)

def cx1r0 : DetailRow := { (default : DetailRow) with source_url := ['a'], deleted := ['0'] }

def cx1r1 : DetailRow := { (default : DetailRow) with source_url := ['a'], deleted := ['0'] }

def cx1r2 : DetailRow :=
  { (default : DetailRow) with source_url := ['a', ' '], summary := ['x'], deleted := ['0'] }

/-- Counterexample to C1 as literally stated: records 0 and 1 below form a
group of two sharing the same non-empty `source_url` "a" (record 2's
`source_url` "a " differs as a string), yet after resolution *neither* of
them has `deleted = false`: the engine groups by whitespace-stripped
`source_url`, so record 2 joins the group and wins on summary length. -/
theorem resolve_keeper_unique_cx :
    ([cx1r0, cx1r1, cx1r2].getD 0 default).source_url = ['a'] ∧
    ([cx1r0, cx1r1, cx1r2].getD 1 default).source_url = ['a'] ∧
    (['a'] : LC) ≠ [] ∧
    ([cx1r0, cx1r1, cx1r2].getD 2 default).source_url ≠ ['a'] ∧
    ((resolve [cx1r0, cx1r1, cx1r2]).getD 0 default).deleted = ['1'] ∧
    ((resolve [cx1r0, cx1r1, cx1r2]).getD 1 default).deleted = ['1'] := by decide

/-- C4: duplicate resolution is idempotent — running `resolve` on its own
output leaves the record count and every record's deletion flag exactly as
after the first run. -/
theorem resolve_idempotent (rows : List DetailRow) :
    (resolve (resolve rows)).length = (resolve rows).length ∧
    ∀ i : Nat, ((resolve (resolve rows)).getD i default).deleted =
      ((resolve rows).getD i default).deleted := by
  refine ⟨by rw [resolve_length, resolve_length], ?_⟩
  intro i
  rcases Nat.lt_or_ge i rows.length with hi | hi
  · have hiR : i < (resolve rows).length := by rw [resolve_length]; exact hi
    rw [resolve_getD (resolve rows) i hiR, resolveSpec_deleted, resolve_getD_source,
      dupGroup_resolve, choose_keeper_resolve]
    have hens : ensure_deleted ((resolve rows).getD i default)
        = (resolve rows).getD i default := by
      refine ensure_of_ne_nil _ ?_
      rw [resolve_getD rows i hi]
      exact resolveSpec_deleted_ne_nil rows i
    rw [hens, resolve_getD rows i hi, resolveSpec_deleted]
    by_cases h1 : pstrip ((rows.getD i default).source_url) = []
    · rw [if_pos h1]
    · rw [if_neg h1]
      by_cases h2 : (dupGroup rows (pstrip ((rows.getD i default).source_url))).length ≤ 1
      · rw [if_pos h2]
      · rw [if_neg h2, if_neg h1, if_neg h2]
  · rw [getD_of_ge _ i (by rw [resolve_length, resolve_length]; exact hi) default,
      getD_of_ge _ i (by rw [resolve_length]; exact hi) default]

/-! ## Lemmas: the extract row loop and the date fields (C2) -/

theorem pyOr_none (a : Option LC) : pyOr a none = a := by cases a <;> rfl

theorem pyOr_assoc (a b c : Option LC) : pyOr (pyOr a b) c = pyOr a (pyOr b c) := by
  cases a <;> rfl

theorem head_filterMap_cons (f : DRow → Option LC) (r : DRow) (l : List DRow) :
    (List.filterMap f (r :: l)).head? = pyOr (f r) (List.filterMap f l).head? := by
  cases hf : f r <;> simp [List.filterMap_cons, hf, pyOr]

theorem processRow_none (cfg : DetailCfg) (nowYear : Nat) (out : DetailOut) (row : DRow)
    (h : lookupLM cfg.label_map row.label = none) :
    processRow cfg nowYear out row = out := by
  unfold processRow
  rw [h]

theorem processRow_some (cfg : DetailCfg) (nowYear : Nat) (out : DetailOut) (row : DRow)
    (field : LC) (h : lookupLM cfg.label_map row.label = some field) :
    processRow cfg nowYear out row = applyField cfg nowYear out row field := by
  unfold processRow
  rw [h]

theorem processRow_dates (cfg : DetailCfg) (nowYear : Nat) (out : DetailOut) (row : DRow)
    (h : lookupLM cfg.label_map row.label ≠ some startDateStr ∧
         lookupLM cfg.label_map row.label ≠ some deadlineDateStr) :
    (processRow cfg nowYear out row).start_date =
      pyOr out.start_date (periodStartOf cfg nowYear row) ∧
    (processRow cfg nowYear out row).deadline_date =
      pyOr out.deadline_date (periodEndOf cfg nowYear row) ∧
    (processRow cfg nowYear out row).title = out.title := by
  obtain ⟨hstart, hdead⟩ := h
  unfold periodStartOf periodEndOf
  cases hl : lookupLM cfg.label_map row.label with
  | none => simp [processRow_none cfg nowYear out row hl, hl, pyOr_none]
  | some field =>
    rw [hl] at hstart hdead
    rw [processRow_some cfg nowYear out row field hl]
    unfold applyField
    have n1 : periodStr ≠ ([] : LC) := by decide
    have n2 : periodStr ≠ sourceUrlStr := by decide
    have n3 : periodStr ≠ summaryStr := by decide
    have n4 : periodStr ≠ fundNameStr := by decide
    have n5 : periodStr ≠ amountStr := by decide
    by_cases hp : field = periodStr
    · subst hp
      rw [if_neg n1, if_neg n2, if_neg n3, if_neg n4, if_neg n5, if_pos rfl,
        if_pos rfl, if_pos rfl]
      exact ⟨rfl, rfl, rfl⟩
    · have hp2 : ¬ (some field = some periodStr) := by simpa using hp
      rw [if_neg hp2, if_neg hp2, pyOr_none, pyOr_none]
      cases hr : row.hrefAbs <;> split_ifs <;> simp_all

theorem foldl_processRow_dates (cfg : DetailCfg) (nowYear : Nat) :
    ∀ (rows : List DRow) (out : DetailOut),
      (∀ row ∈ rows, lookupLM cfg.label_map row.label ≠ some startDateStr ∧
                     lookupLM cfg.label_map row.label ≠ some deadlineDateStr) →
      (rows.foldl (processRow cfg nowYear) out).start_date =
        pyOr out.start_date (rows.filterMap (periodStartOf cfg nowYear)).head? ∧
      (rows.foldl (processRow cfg nowYear) out).deadline_date =
        pyOr out.deadline_date (rows.filterMap (periodEndOf cfg nowYear)).head? ∧
      (rows.foldl (processRow cfg nowYear) out).title = out.title := by
  intro rows
  induction rows with
  | nil =>
    intro out _
    exact ⟨(pyOr_none _).symm, (pyOr_none _).symm, rfl⟩
  | cons row rest ih =>
    intro out h
    have hrow := processRow_dates cfg nowYear out row (h row (List.mem_cons_self row rest))
    have hrest := ih (processRow cfg nowYear out row)
      (fun r hr => h r (List.mem_cons_of_mem row hr))
    refine ⟨?_, ?_, ?_⟩
    · show (rest.foldl (processRow cfg nowYear) (processRow cfg nowYear out row)).start_date = _
      rw [hrest.1, hrow.1, pyOr_assoc, head_filterMap_cons]
    · show (rest.foldl (processRow cfg nowYear) (processRow cfg nowYear out row)).deadline_date = _
      rw [hrest.2.1, hrow.2.1, pyOr_assoc, head_filterMap_cons]
    · show (rest.foldl (processRow cfg nowYear) (processRow cfg nowYear out row)).title = _
      rw [hrest.2.2, hrow.2.2]

theorem detailFallback_title_none (nowYear : Nat) (out1 : DetailOut)
    (ht : out1.title = none) : detailFallback nowYear out1 = out1 := by
  unfold detailFallback
  rw [ht]
  cases hd : out1.deadline_date <;> rfl

theorem detailFallback_deadline_some (nowYear : Nat) (out1 : DetailOut) (v : LC)
    (hd : out1.deadline_date = some v) : detailFallback nowYear out1 = out1 := by
  unfold detailFallback
  rw [hd]

/-- C2 (amended): only the `period` branch of `extract_detail` protects
already-resolved dates.  A period-mapped row never overwrites a set
`start_date` or `deadline_date`, and on a page whose rows contain no
directly-mapped date rows the final dates are exactly the first non-empty
period-parsed values; a row mapped directly to `start_date` or
`deadline_date`, however, assigns its own parse unconditionally —
overwriting, or even clearing, an earlier value. -/
theorem extract_dates_first_wins_period_only :
    (∀ (cfg : DetailCfg) (nowYear : Nat) (out : DetailOut) (row : DRow) (s : LC),
        lookupLM cfg.label_map row.label = some periodStr →
        out.start_date = some s →
        (processRow cfg nowYear out row).start_date = some s) ∧
    (∀ (cfg : DetailCfg) (nowYear : Nat) (out : DetailOut) (row : DRow) (s : LC),
        lookupLM cfg.label_map row.label = some periodStr →
        out.deadline_date = some s →
        (processRow cfg nowYear out row).deadline_date = some s) ∧
    (∀ (cfg : DetailCfg) (nowYear : Nat) (rows : List DRow) (page_url today : LC),
        (∀ row ∈ rows, lookupLM cfg.label_map row.label ≠ some startDateStr ∧
                       lookupLM cfg.label_map row.label ≠ some deadlineDateStr) →
        (extract_detail none rows page_url cfg nowYear today).start_date =
          (rows.filterMap (periodStartOf cfg nowYear)).head? ∧
        (extract_detail none rows page_url cfg nowYear today).deadline_date =
          (rows.filterMap (periodEndOf cfg nowYear)).head?) ∧
    (∀ (cfg : DetailCfg) (nowYear : Nat) (out : DetailOut) (row : DRow),
        lookupLM cfg.label_map row.label = some startDateStr →
        (processRow cfg nowYear out row).start_date = norm_date row.text none nowYear) ∧
    (∀ (cfg : DetailCfg) (nowYear : Nat) (out : DetailOut) (row : DRow),
        lookupLM cfg.label_map row.label = some deadlineDateStr →
        (processRow cfg nowYear out row).deadline_date = norm_date row.text none nowYear) := by
  refine ⟨?_, ?_, ?_, ?_, ?_⟩
  · intro cfg nowYear out row s hl hs
    have h := processRow_dates cfg nowYear out row
      (by rw [hl]; exact ⟨by decide, by decide⟩)
    rw [h.1, hs]
    rfl
  · intro cfg nowYear out row s hl hs
    have h := processRow_dates cfg nowYear out row
      (by rw [hl]; exact ⟨by decide, by decide⟩)
    rw [h.2.1, hs]
    rfl
  · intro cfg nowYear rows page_url today h
    have hf := foldl_processRow_dates cfg nowYear rows (initOut none page_url today) h
    have ht : (rows.foldl (processRow cfg nowYear) (initOut none page_url today)).title
        = none := hf.2.2
    unfold extract_detail
    rw [detailFallback_title_none nowYear _ ht]
    exact ⟨hf.1, hf.2.1⟩
  · intro cfg nowYear out row hl
    rw [processRow_some cfg nowYear out row startDateStr hl]
    rfl
  · intro cfg nowYear out row hl
    rw [processRow_some cfg nowYear out row deadlineDateStr hl]
    rfl

def simeStr : LC := ['締', '切']

def kikanStr : LC := ['期', '間']

def cfgDeadline : DetailCfg :=
  { label_map := [(simeStr, deadlineDateStr)], range_separators := none }

def cfgKikan : DetailCfg :=
  { label_map := [(kikanStr, periodStr)], range_separators := none }

def cx2row1 : DRow := ⟨simeStr, ['2', '0', '2', '5', '年', '1', '月', '1', '日'], none⟩

def cx2row2 : DRow := ⟨simeStr, ['2', '0', '2', '5', '年', '2', '月', '2', '日'], none⟩

/-- Counterexample to C2 as literally stated: two rows both mapped directly
to `deadline_date`, the first carrying a non-empty parseable value
2025-01-01 — yet the extracted deadline is the *second* row's 2025-02-02:
directly-mapped date rows overwrite an already-resolved date. -/
theorem extract_dates_first_wins_cx :
    norm_date cx2row1.text none 2025 = some (fmtDate 2025 1 1) ∧
    some (fmtDate 2025 1 1) ≠ some (fmtDate 2025 2 2) ∧
    (extract_detail none [cx2row1, cx2row2] ['p'] cfgDeadline 2025 ['t']).deadline_date =
      some (fmtDate 2025 2 2) := by decide

def w2row1 : DRow :=
  ⟨kikanStr, ['2', '0', '2', '5', '年', '9', '月', '1', '日', '～', '1', '0', '月', '3', '1', '日'], none⟩

def w2row2 : DRow :=
  ⟨kikanStr, ['2', '0', '2', '5', '年', '1', '月', '1', '日', '～', '2', '月', '2', '日'], none⟩

/-- Witness for `extract_dates_first_wins_period_only`: on a page with two
period-mapped rows, extraction keeps the first row's dates. -/
theorem extract_dates_first_wins_period_only_witness :
    (extract_detail none [w2row1, w2row2] ['p'] cfgKikan 2025 ['t']).start_date =
      ([w2row1, w2row2].filterMap (periodStartOf cfgKikan 2025)).head? ∧
    (extract_detail none [w2row1, w2row2] ['p'] cfgKikan 2025 ['t']).deadline_date =
      ([w2row1, w2row2].filterMap (periodEndOf cfgKikan 2025)).head? :=
  extract_dates_first_wins_period_only.2.2.1 cfgKikan 2025 [w2row1, w2row2] ['p'] ['t']
    (by decide)

/-! ## Lemmas: period parsing and year propagation (C3) -/

def ex1PeriodText : LC :=
  ['2', '0', '2', '5', '年', '9', '月', '1', '日', '～', '1', '0', '月', '3', '1', '日']

def ex2PeriodText : LC := ['9', '/', '1', '～', '1', '0', '/', '3', '1']

/-- C3: when the period text splits at a range separator and a 4-digit
year appears on the left side, the right side is parsed with that year as
its default, so a bare month/day on the right inherits the left year (first
clause); in particular "2025年9月1日～10月31日" extracts to
start 2025-09-01 / deadline 2025-10-31 for any current year, and
"9/1～10/31" with no year context extracts both dates in the current year
(year range 1000-9999, where the `%Y` rendering is exact). -/
theorem extract_period_year_propagation :
    (∀ (raw l r : LC) (Y m d nowYear : Nat),
        periodSplitOf default_range_separators raw = some (l, r) →
        searchYear l = some Y → Y ≠ 0 →
        searchYMD (pstrip r) = none →
        searchMD sep2Chars (pstrip r) = some (m, d) →
        validDate Y m d = true →
        (periodParse default_range_separators raw nowYear).2 = some (fmtDate Y m d)) ∧
    (∀ (nowYear : Nat) (today : LC),
        (extract_detail none [⟨kikanStr, ex1PeriodText, none⟩] ['p'] cfgKikan nowYear
            today).start_date = some (fmtDate 2025 9 1) ∧
        (extract_detail none [⟨kikanStr, ex1PeriodText, none⟩] ['p'] cfgKikan nowYear
            today).deadline_date = some (fmtDate 2025 10 31)) ∧
    (∀ (nowYear : Nat) (today : LC), 1000 ≤ nowYear → nowYear ≤ 9999 →
        (extract_detail none [⟨kikanStr, ex2PeriodText, none⟩] ['p'] cfgKikan nowYear
            today).start_date = some (fmtDate nowYear 9 1) ∧
        (extract_detail none [⟨kikanStr, ex2PeriodText, none⟩] ['p'] cfgKikan nowYear
            today).deadline_date = some (fmtDate nowYear 10 31)) := by
  refine ⟨?_, ?_, ?_⟩
  · intro raw l r Y m d nowYear hsplit hyear hY0 hymd hmd hval
    have hrd : resolve_default (some Y) nowYear = Y := by
      show (if Y = 0 then nowYear else Y) = Y
      rw [if_neg hY0]
    have hvr : validDate (resolve_default (some Y) nowYear) m d = true := by
      rw [hrd]; exact hval
    have hpe : norm_date r (some Y) nowYear = some (fmtDate Y m d) := by
      have h3 := norm_date_md_of_searches r (some Y) nowYear m d hymd hmd hvr
      rw [hrd] at h3
      exact h3
    have hp : periodPair default_range_separators raw nowYear =
        (norm_date l none nowYear, norm_date r (some Y) nowYear) := by
      unfold periodPair
      rw [hsplit]
      show (norm_date l none nowYear,
        norm_date r (some (match searchYear l with | some y => y | none => nowYear))
          nowYear) = _
      rw [hyear]
    unfold periodParse
    rw [hp, hpe]
    cases hps : norm_date l none nowYear <;> rfl
  · intro nowYear today
    exact ⟨rfl, rfl⟩
  · intro nowYear today h1 h2
    have hv9 : validDate nowYear 9 1 = true := by
      simp [validDate, daysInMonth]
      omega
    have hv10 : validDate nowYear 10 31 = true := by
      simp [validDate, daysInMonth]
      omega
    have n1 : norm_date ['9', '/', '1'] none nowYear = some (fmtDate nowYear 9 1) := by
      have e : norm_date ['9', '/', '1'] none nowYear =
          if validDate nowYear 9 1 = true then some (fmtDate nowYear 9 1) else none := rfl
      rw [e, hv9]
      simp
    have n2 : norm_date ['1', '0', '/', '3', '1'] (some nowYear) nowYear =
        some (fmtDate nowYear 10 31) := by
      have e : norm_date ['1', '0', '/', '3', '1'] (some nowYear) nowYear =
          if validDate (if nowYear = 0 then nowYear else nowYear) 10 31 = true then
            some (fmtDate (if nowYear = 0 then nowYear else nowYear) 10 31)
          else none := rfl
      rw [e]
      simp only [ite_self]
      rw [hv10]
      simp
    have e3 : periodPair default_range_separators ex2PeriodText nowYear =
        (norm_date ['9', '/', '1'] none nowYear,
         norm_date ['1', '0', '/', '3', '1'] (some nowYear) nowYear) := rfl
    have e4 : periodParse default_range_separators ex2PeriodText nowYear =
        (some (fmtDate nowYear 9 1), some (fmtDate nowYear 10 31)) := by
      unfold periodParse
      rw [e3, n1, n2]
    have hO1 : (processRow cfgKikan nowYear (initOut none ['p'] today)
        ⟨kikanStr, ex2PeriodText, none⟩).start_date =
        (periodParse default_range_separators ex2PeriodText nowYear).1 := rfl
    have hO2 : (processRow cfgKikan nowYear (initOut none ['p'] today)
        ⟨kikanStr, ex2PeriodText, none⟩).deadline_date =
        (periodParse default_range_separators ex2PeriodText nowYear).2 := rfl
    have hOd : (processRow cfgKikan nowYear (initOut none ['p'] today)
        ⟨kikanStr, ex2PeriodText, none⟩).deadline_date = some (fmtDate nowYear 10 31) := by
      rw [hO2, e4]
    have hfb : extract_detail none [⟨kikanStr, ex2PeriodText, none⟩] ['p'] cfgKikan nowYear
        today = processRow cfgKikan nowYear (initOut none ['p'] today)
          ⟨kikanStr, ex2PeriodText, none⟩ := by
      have e5 : extract_detail none [⟨kikanStr, ex2PeriodText, none⟩] ['p'] cfgKikan nowYear
          today = detailFallback nowYear (processRow cfgKikan nowYear
            (initOut none ['p'] today) ⟨kikanStr, ex2PeriodText, none⟩) := rfl
      rw [e5, detailFallback_deadline_some nowYear _ _ hOd]
    rw [hfb]
    exact ⟨by rw [hO1, e4], hOd⟩

/-- Witness for `extract_period_year_propagation`: the general clause at the
split of "2025年9月1日～10月31日" (with an arbitrary current year 1234), and
the two concrete extractions. -/
theorem extract_period_year_propagation_witness :
    (periodParse default_range_separators ex1PeriodText 1234).2 =
      some (fmtDate 2025 10 31) ∧
    (extract_detail none [⟨kikanStr, ex1PeriodText, none⟩] ['p'] cfgKikan 2030
        ['t']).start_date = some (fmtDate 2025 9 1) ∧
    (extract_detail none [⟨kikanStr, ex2PeriodText, none⟩] ['p'] cfgKikan 2024
        ['t']).deadline_date = some (fmtDate 2024 10 31) := by
  refine ⟨?_, ?_, ?_⟩
  · exact extract_period_year_propagation.1 ex1PeriodText
      ['2', '0', '2', '5', '年', '9', '月', '1', '日'] ['1', '0', '月', '3', '1', '日']
      2025 10 31 1234 (by decide) (by decide) (by decide) (by decide) (by decide) (by decide)
  · exact (extract_period_year_propagation.2.1 2030 ['t']).1
  · exact (extract_period_year_propagation.2.2 2024 ['t'] (by decide) (by decide)).2

/-! ## Lemmas: digit-only text and the hyphen range separator (C10) -/

theorem digit_ne (x c : Char) (hx : isDigitCh x = true) (hc : isDigitCh c = false) :
    x ≠ c := by
  intro he
  subst he
  rw [hx] at hc
  cases hc

theorem digit_not_space (s : Char) (h : isDigitCh s = true) : isSpaceCh s = false := by
  unfold isSpaceCh
  simp [digit_ne s ' ' h (by decide), digit_ne s '\t' h (by decide),
    digit_ne s '\n' h (by decide), digit_ne s '\r' h (by decide),
    digit_ne s '\x0b' h (by decide), digit_ne s '\x0c' h (by decide),
    digit_ne s '　' h (by decide)]

theorem digit_not_sep1 (s : Char) (h : isDigitCh s = true) : elemL s sep1Chars = false := by
  unfold sep1Chars elemL
  rw [if_neg (digit_ne s '年' h (by decide))]
  unfold elemL
  rw [if_neg (digit_ne s '/' h (by decide))]
  unfold elemL
  rw [if_neg (digit_ne s '.' h (by decide))]
  unfold elemL
  rw [if_neg (digit_ne s '-' h (by decide))]
  rfl

theorem digit_not_sep2 (s : Char) (h : isDigitCh s = true) : elemL s sep2Chars = false := by
  unfold sep2Chars elemL
  rw [if_neg (digit_ne s '月' h (by decide))]
  unfold elemL
  rw [if_neg (digit_ne s '/' h (by decide))]
  unfold elemL
  rw [if_neg (digit_ne s '.' h (by decide))]
  unfold elemL
  rw [if_neg (digit_ne s '-' h (by decide))]
  rfl

theorem afterSep_all_digits (cs : LC) (h : ∀ c ∈ cs, isDigitCh c = true) :
    afterSep sep2Chars cs = none := by
  cases cs with
  | nil => rfl
  | cons s rest =>
    simp only [afterSep]
    rw [digit_not_sep2 s (h s (List.mem_cons_self s rest))]
    rfl

theorem matchMDAt_all_digits (cs : LC) (h : ∀ c ∈ cs, isDigitCh c = true) :
    matchMDAt sep2Chars cs = none := by
  cases cs with
  | nil => rfl
  | cons a rest =>
    simp only [matchMDAt]
    rw [h a (List.mem_cons_self a rest)]
    cases rest with
    | nil => rfl
    | cons b rest2 =>
      have hb : isDigitCh b = true :=
        h b (List.mem_cons_of_mem a (List.mem_cons_self b rest2))
      have h2 : afterSep sep2Chars rest2 = none :=
        afterSep_all_digits rest2
          (fun c hc => h c (List.mem_cons_of_mem a (List.mem_cons_of_mem b hc)))
      have h3 : afterSep sep2Chars (b :: rest2) = none :=
        afterSep_all_digits (b :: rest2) (fun c hc => h c (List.mem_cons_of_mem a hc))
      show (if isDigitCh b = true then
              match afterSep sep2Chars rest2 with
              | some d2 => some (10 * digitVal a + digitVal b, d2)
              | none =>
                match afterSep sep2Chars (b :: rest2) with
                | some d2 => some (digitVal a, d2)
                | none => none
            else
              match afterSep sep2Chars (b :: rest2) with
              | some d2 => some (digitVal a, d2)
              | none => none) = none
      rw [hb, h2, h3]
      rfl

theorem searchMD_all_digits : ∀ (cs : LC), (∀ c ∈ cs, isDigitCh c = true) →
    searchMD sep2Chars cs = none := by
  intro cs
  induction cs with
  | nil => intro _; rfl
  | cons c rest ih =>
    intro h
    simp only [searchMD]
    rw [matchMDAt_all_digits (c :: rest) h]
    exact ih (fun x hx => h x (List.mem_cons_of_mem c hx))

theorem matchYMDAt_all_digits (cs : LC) (h : ∀ c ∈ cs, isDigitCh c = true) :
    matchYMDAt cs = none := by
  match cs with
  | [] => rfl
  | [a] => rfl
  | [a, b] => rfl
  | [a, b, c] => rfl
  | [a, b, c, d] => rfl
  | a :: b :: c :: d :: e :: rest =>
    have he : isDigitCh e = true := by
      refine h e ?_
      simp
    simp only [matchYMDAt]
    rw [digit_not_sep1 e he]
    simp

theorem searchYMD_all_digits : ∀ (cs : LC), (∀ c ∈ cs, isDigitCh c = true) →
    searchYMD cs = none := by
  intro cs
  induction cs with
  | nil => intro _; rfl
  | cons c rest ih =>
    intro h
    simp only [searchYMD]
    rw [matchYMDAt_all_digits (c :: rest) h]
    exact ih (fun x hx => h x (List.mem_cons_of_mem c hx))

theorem matchYearAt_all_digits (cs : LC) (h : ∀ c ∈ cs, isDigitCh c = true) :
    matchYearAt cs = none := by
  match cs with
  | [] => rfl
  | [a] => rfl
  | [a, b] => rfl
  | [a, b, c] => rfl
  | a :: b :: c :: d :: rest =>
    simp only [matchYearAt]
    cases rest with
    | nil => simp
    | cons e tl =>
      have he : isDigitCh e = true := by
        refine h e ?_
        simp
      rw [List.dropWhile_cons, digit_not_space e he]
      simp [digit_ne e '年' he (by decide)]

theorem searchYear_all_digits : ∀ (cs : LC), (∀ c ∈ cs, isDigitCh c = true) →
    searchYear cs = none := by
  intro cs
  induction cs with
  | nil => intro _; rfl
  | cons c rest ih =>
    intro h
    simp only [searchYear]
    rw [matchYearAt_all_digits (c :: rest) h]
    exact ih (fun x hx => h x (List.mem_cons_of_mem c hx))

theorem dropWhile_no_space (cs : LC) (h : ∀ c ∈ cs, isSpaceCh c = false) :
    cs.dropWhile isSpaceCh = cs := by
  cases cs with
  | nil => rfl
  | cons a l =>
    rw [List.dropWhile_cons, h a (List.mem_cons_self a l)]
    simp

theorem pstrip_no_space (cs : LC) (h : ∀ c ∈ cs, isSpaceCh c = false) :
    pstrip cs = cs := by
  unfold pstrip
  rw [dropWhile_no_space cs h]
  rw [dropWhile_no_space cs.reverse (fun c hc => h c (List.mem_reverse.mp hc))]
  exact List.reverse_reverse cs

theorem pysplitAux_no_space : ∀ (cs acc : LC), (∀ c ∈ cs, isSpaceCh c = false) →
    acc.reverse ++ cs ≠ [] → pysplitAux cs acc = [acc.reverse ++ cs] := by
  intro cs
  induction cs with
  | nil =>
    intro acc _ hne
    unfold pysplitAux
    rw [if_neg (by simpa using hne)]
    simp
  | cons c rest ih =>
    intro acc h hne
    unfold pysplitAux
    rw [h c (List.mem_cons_self c rest)]
    show pysplitAux rest (c :: acc) = _
    rw [ih (c :: acc) (fun x hx => h x (List.mem_cons_of_mem c hx)) (by simp)]
    simp

theorem wsCollapse_no_space (cs : LC) (h : ∀ c ∈ cs, isSpaceCh c = false)
    (hne : cs ≠ []) : wsCollapse cs = cs := by
  unfold wsCollapse pysplit
  rw [pysplitAux_no_space cs [] h (by simpa using hne)]
  rfl

theorem not_elem_of_digit_hyphen (c : Char) (hc : isDigitCh c = false) (hne : c ≠ '-') :
    ∀ (cs : LC), (∀ x ∈ cs, isDigitCh x = true ∨ x = '-') → elemL c cs = false := by
  intro cs
  induction cs with
  | nil => intro _; rfl
  | cons d rest ih =>
    intro h
    unfold elemL
    have hcd : c ≠ d := by
      rcases h d (List.mem_cons_self d rest) with hd | hd
      · exact (digit_ne d c hd hc).symm
      · rw [hd]; exact hne
    rw [if_neg hcd]
    exact ih (fun x hx => h x (List.mem_cons_of_mem d hx))

theorem containsSub_head_false (c : Char) (s cs : LC) (h : elemL c cs = false) :
    containsSub (c :: s) cs = false := by
  induction cs with
  | nil => rfl
  | cons d rest ih =>
    unfold elemL at h
    by_cases hcd : c = d
    · rw [if_pos hcd] at h; cases h
    · rw [if_neg hcd] at h
      unfold containsSub isPrefixL
      rw [if_neg hcd]
      simp [ih h]

/-- C10: under the default range-separator set (which contains the ASCII
hyphen), a period-mapped value whose entire text is one hyphen-separated
date `YYYY-MM-DD` is split at its first hyphen as a range: the left side
"YYYY" parses as no date, so `start_date` stays unset, and the right side
"MM-DD" parses as a bare month/day completed with the *current* year — the
4-digit year written in the text is discarded. -/
theorem extract_period_hyphen_split
    (q1 q2 q3 q4 a1 a2 b1 b2 : Char) (nowYear : Nat) (today : LC)
    (hq1 : isDigitCh q1 = true) (hq2 : isDigitCh q2 = true)
    (hq3 : isDigitCh q3 = true) (hq4 : isDigitCh q4 = true)
    (ha1 : isDigitCh a1 = true) (ha2 : isDigitCh a2 = true)
    (hb1 : isDigitCh b1 = true) (hb2 : isDigitCh b2 = true)
    (hm1 : 1 ≤ 10 * digitVal a1 + digitVal a2)
    (hm2 : 10 * digitVal a1 + digitVal a2 ≤ 12)
    (hd1 : 1 ≤ 10 * digitVal b1 + digitVal b2)
    (hd2 : 10 * digitVal b1 + digitVal b2 ≤
      daysInMonth nowYear (10 * digitVal a1 + digitVal a2))
    (hy1 : 1000 ≤ nowYear) (hy2 : nowYear ≤ 9999) :
    (extract_detail none [⟨kikanStr, [q1, q2, q3, q4, '-', a1, a2, '-', b1, b2], none⟩]
        ['p'] cfgKikan nowYear today).start_date = none ∧
    (extract_detail none [⟨kikanStr, [q1, q2, q3, q4, '-', a1, a2, '-', b1, b2], none⟩]
        ['p'] cfgKikan nowYear today).deadline_date =
      some (fmtDate nowYear (10 * digitVal a1 + digitVal a2)
        (10 * digitVal b1 + digitVal b2)) := by
  have htext : ∀ x ∈ ([q1, q2, q3, q4, '-', a1, a2, '-', b1, b2] : LC),
      isDigitCh x = true ∨ x = '-' := by
    intro x hx
    simp only [List.mem_cons, List.not_mem_nil, or_false] at hx
    rcases hx with rfl | rfl | rfl | rfl | rfl | rfl | rfl | rfl | rfl | rfl
    · exact Or.inl hq1
    · exact Or.inl hq2
    · exact Or.inl hq3
    · exact Or.inl hq4
    · exact Or.inr rfl
    · exact Or.inl ha1
    · exact Or.inl ha2
    · exact Or.inr rfl
    · exact Or.inl hb1
    · exact Or.inl hb2
  have hnospace : ∀ c ∈ ([q1, q2, q3, q4, '-', a1, a2, '-', b1, b2] : LC),
      isSpaceCh c = false := by
    intro c hc
    rcases htext c hc with h | h
    · exact digit_not_space c h
    · rw [h]; decide
  have hA : wsCollapse [q1, q2, q3, q4, '-', a1, a2, '-', b1, b2] =
      [q1, q2, q3, q4, '-', a1, a2, '-', b1, b2] :=
    wsCollapse_no_space _ hnospace (by simp)
  have e1 : elemL '～' [q1, q2, q3, q4, '-', a1, a2, '-', b1, b2] = false :=
    not_elem_of_digit_hyphen '～' (by decide) (by decide) _ htext
  have e2 : elemL '〜' [q1, q2, q3, q4, '-', a1, a2, '-', b1, b2] = false :=
    not_elem_of_digit_hyphen '〜' (by decide) (by decide) _ htext
  have e4 : elemL 'か' [q1, q2, q3, q4, '-', a1, a2, '-', b1, b2] = false :=
    not_elem_of_digit_hyphen 'か' (by decide) (by decide) _ htext
  have c1 : containsSub ['～'] [q1, q2, q3, q4, '-', a1, a2, '-', b1, b2] = false :=
    containsSub_head_false '～' [] _ e1
  have c2 : containsSub ['〜'] [q1, q2, q3, q4, '-', a1, a2, '-', b1, b2] = false :=
    containsSub_head_false '〜' [] _ e2
  have c3 : containsSub ['-'] [q1, q2, q3, q4, '-', a1, a2, '-', b1, b2] = true := by
    simp [containsSub, isPrefixL, (digit_ne q1 '-' hq1 (by decide)).symm,
      (digit_ne q2 '-' hq2 (by decide)).symm, (digit_ne q3 '-' hq3 (by decide)).symm,
      (digit_ne q4 '-' hq4 (by decide)).symm]
  have hfind : find_first_sep default_range_separators
      [q1, q2, q3, q4, '-', a1, a2, '-', b1, b2] = some ['-'] := by
    simp only [find_first_sep, default_range_separators, List.find?]
    rw [c1, c2, c3]
  have hsplit : splitOnce ['-'] [q1, q2, q3, q4, '-', a1, a2, '-', b1, b2] =
      ([q1, q2, q3, q4], [a1, a2, '-', b1, b2]) := by
    simp [splitOnce, isPrefixL, (digit_ne q1 '-' hq1 (by decide)).symm,
      (digit_ne q2 '-' hq2 (by decide)).symm, (digit_ne q3 '-' hq3 (by decide)).symm,
      (digit_ne q4 '-' hq4 (by decide)).symm]
  have hsplitOf : periodSplitOf default_range_separators
      [q1, q2, q3, q4, '-', a1, a2, '-', b1, b2] =
      some ([q1, q2, q3, q4], [a1, a2, '-', b1, b2]) := by
    unfold periodSplitOf
    rw [hfind]
    show some (splitOnce ['-'] [q1, q2, q3, q4, '-', a1, a2, '-', b1, b2]) = _
    rw [hsplit]
  have hall4 : ∀ c ∈ ([q1, q2, q3, q4] : LC), isDigitCh c = true := by
    intro c hc
    simp only [List.mem_cons, List.not_mem_nil, or_false] at hc
    rcases hc with rfl | rfl | rfl | rfl
    · exact hq1
    · exact hq2
    · exact hq3
    · exact hq4
  have hleftstrip : pstrip [q1, q2, q3, q4] = [q1, q2, q3, q4] :=
    pstrip_no_space _ (fun c hc => digit_not_space c (hall4 c hc))
  have hD : norm_date [q1, q2, q3, q4] none nowYear = none := by
    rw [norm_date_eq_cases, hleftstrip, searchYMD_all_digits [q1, q2, q3, q4] hall4,
      searchMD_all_digits [q1, q2, q3, q4] hall4]
    simp
  have hE : searchYear [q1, q2, q3, q4] = none := searchYear_all_digits _ hall4
  have hrightstrip : pstrip [a1, a2, '-', b1, b2] = [a1, a2, '-', b1, b2] := by
    refine pstrip_no_space _ ?_
    intro c hc
    simp only [List.mem_cons, List.not_mem_nil, or_false] at hc
    rcases hc with rfl | rfl | rfl | rfl | rfl
    · exact digit_not_space _ ha1
    · exact digit_not_space _ ha2
    · decide
    · exact digit_not_space _ hb1
    · exact digit_not_space _ hb2
  have hm5 : matchYMDAt [a1, a2, '-', b1, b2] = none := by
    simp only [matchYMDAt]
    simp [show isDigitCh '-' = false from by decide]
  have hymdR : searchYMD [a1, a2, '-', b1, b2] = none := by
    simp only [searchYMD]
    rw [hm5]
    rfl
  have haft : afterSep sep2Chars ['-', b1, b2] =
      some (10 * digitVal b1 + digitVal b2) := by
    have hds : elemL '-' sep2Chars = true := by decide
    simp only [afterSep, hds, List.dropWhile_cons, digit_not_space b1 hb1]
    simp [hb1, hb2]
  have hmat : matchMDAt sep2Chars [a1, a2, '-', b1, b2] =
      some (10 * digitVal a1 + digitVal a2, 10 * digitVal b1 + digitVal b2) := by
    simp only [matchMDAt, ha1, ha2]
    rw [haft]
    simp
  have hmdR : searchMD sep2Chars [a1, a2, '-', b1, b2] =
      some (10 * digitVal a1 + digitVal a2, 10 * digitVal b1 + digitVal b2) := by
    simp only [searchMD]
    rw [hmat]
  have hrd : resolve_default (some nowYear) nowYear = nowYear := by
    show (if nowYear = 0 then nowYear else nowYear) = nowYear
    exact ite_self _
  have hv : validDate nowYear (10 * digitVal a1 + digitVal a2)
      (10 * digitVal b1 + digitVal b2) = true := by
    simp only [validDate, Bool.and_eq_true, decide_eq_true_eq]
    refine ⟨⟨⟨⟨⟨by omega, by omega⟩, by omega⟩, by omega⟩, by omega⟩, hd2⟩
  have hF : norm_date [a1, a2, '-', b1, b2] (some nowYear) nowYear =
      some (fmtDate nowYear (10 * digitVal a1 + digitVal a2)
        (10 * digitVal b1 + digitVal b2)) := by
    rw [norm_date_eq_cases, hrightstrip, hymdR, hmdR]
    simp [hrd, hv]
  have hp : periodPair default_range_separators
      [q1, q2, q3, q4, '-', a1, a2, '-', b1, b2] nowYear =
      (none, some (fmtDate nowYear (10 * digitVal a1 + digitVal a2)
        (10 * digitVal b1 + digitVal b2))) := by
    unfold periodPair
    rw [hsplitOf]
    show (norm_date [q1, q2, q3, q4] none nowYear,
      norm_date [a1, a2, '-', b1, b2]
        (some (match searchYear [q1, q2, q3, q4] with | some y => y | none => nowYear))
        nowYear) = _
    rw [hE]
    show (norm_date [q1, q2, q3, q4] none nowYear,
      norm_date [a1, a2, '-', b1, b2] (some nowYear) nowYear) = _
    rw [hD, hF]
  have hpp : periodParse default_range_separators
      [q1, q2, q3, q4, '-', a1, a2, '-', b1, b2] nowYear =
      (none, some (fmtDate nowYear (10 * digitVal a1 + digitVal a2)
        (10 * digitVal b1 + digitVal b2))) := by
    unfold periodParse
    rw [hp]
  have hO1 : (processRow cfgKikan nowYear (initOut none ['p'] today)
      ⟨kikanStr, [q1, q2, q3, q4, '-', a1, a2, '-', b1, b2], none⟩).start_date =
      (periodParse default_range_separators
        (wsCollapse [q1, q2, q3, q4, '-', a1, a2, '-', b1, b2]) nowYear).1 := rfl
  have hO2 : (processRow cfgKikan nowYear (initOut none ['p'] today)
      ⟨kikanStr, [q1, q2, q3, q4, '-', a1, a2, '-', b1, b2], none⟩).deadline_date =
      (periodParse default_range_separators
        (wsCollapse [q1, q2, q3, q4, '-', a1, a2, '-', b1, b2]) nowYear).2 := rfl
  have hOd : (processRow cfgKikan nowYear (initOut none ['p'] today)
      ⟨kikanStr, [q1, q2, q3, q4, '-', a1, a2, '-', b1, b2], none⟩).deadline_date =
      some (fmtDate nowYear (10 * digitVal a1 + digitVal a2)
        (10 * digitVal b1 + digitVal b2)) := by
    rw [hO2, hA, hpp]
  have hfb : extract_detail none
      [⟨kikanStr, [q1, q2, q3, q4, '-', a1, a2, '-', b1, b2], none⟩]
      ['p'] cfgKikan nowYear today =
      processRow cfgKikan nowYear (initOut none ['p'] today)
        ⟨kikanStr, [q1, q2, q3, q4, '-', a1, a2, '-', b1, b2], none⟩ := by
    have e5 : extract_detail none
        [⟨kikanStr, [q1, q2, q3, q4, '-', a1, a2, '-', b1, b2], none⟩]
        ['p'] cfgKikan nowYear today =
        detailFallback nowYear (processRow cfgKikan nowYear (initOut none ['p'] today)
          ⟨kikanStr, [q1, q2, q3, q4, '-', a1, a2, '-', b1, b2], none⟩) := rfl
    rw [e5, detailFallback_deadline_some nowYear _ _ hOd]
  rw [hfb]
  refine ⟨?_, hOd⟩
  rw [hO1, hA, hpp]

/-- Witness for `extract_period_hyphen_split`: the period value "2025-10-31"
with current year 2024 extracts no start date and deadline 2024-10-31 — the
written year 2025 is discarded. -/
theorem extract_period_hyphen_split_witness :
    (extract_detail none
        [⟨kikanStr, ['2', '0', '2', '5', '-', '1', '0', '-', '3', '1'], none⟩]
        ['p'] cfgKikan 2024 ['t']).start_date = none ∧
    (extract_detail none
        [⟨kikanStr, ['2', '0', '2', '5', '-', '1', '0', '-', '3', '1'], none⟩]
        ['p'] cfgKikan 2024 ['t']).deadline_date = some (fmtDate 2024 10 31) :=
  extract_period_hyphen_split '2' '0' '2' '5' '1' '0' '3' '1' 2024 ['t']
    (by decide) (by decide) (by decide) (by decide) (by decide) (by decide)
    (by decide) (by decide) (by decide) (by decide) (by decide) (by decide)
    (by decide) (by decide)
